import Mathlib

/-!
# SimpleTrackedVehiclePlugin: contact enumeration and belt friction

A shallow embedding of `plugins/SimpleTrackedVehiclePlugin.cc`.

Conventions of the embedding:

* `double` and `dReal` values are exact rationals (`ℚ`); rounding is not modelled.
  The only non-finite value the plugin produces on purpose, `dInfinity`, is
  represented by `none` in `Option ℚ`.
* ODE handles (`dBodyID`, `dGeomID`, joints) are natural numbers; the joint list
  that ODE keeps for every body is a function from body handles to lists of joints.
* A pointer to the `dContact` that lives inside a contact joint is the handle of
  that joint.
* The iterator keeps the address of a local variable of an activation that has
  ended; what a read through that address returns is an input of the model
  (`Machine`), not a result of it.
* Member functions that modify `*this` return the updated object next to their
  C++ result.
-/

namespace SimpleTrackedVehiclePlugin

/-! ## ignition::math::Vector3d -/

/-- The class `ignition::math::Vector3d`, with exact rational components. -/
structure Vector3d where
  X : ℚ
  Y : ℚ
  Z : ℚ
  deriving DecidableEq, Repr

namespace Vector3d

/-- The member `Vector3::operator+`. -/
def add (a b : Vector3d) : Vector3d := ⟨a.X + b.X, a.Y + b.Y, a.Z + b.Z⟩

/-- The member `Vector3::operator-` with one argument. -/
def sub (a b : Vector3d) : Vector3d := ⟨a.X - b.X, a.Y - b.Y, a.Z - b.Z⟩

/-- The member `Vector3::operator-` without argument. -/
def neg (a : Vector3d) : Vector3d := ⟨-a.X, -a.Y, -a.Z⟩

/-- The member `Vector3::operator*` taking a scalar. -/
def scale (a : Vector3d) (s : ℚ) : Vector3d := ⟨a.X * s, a.Y * s, a.Z * s⟩

/-- The member `Vector3::Dot`. -/
def Dot (a b : Vector3d) : ℚ := a.X * b.X + a.Y * b.Y + a.Z * b.Z

/-- The member `Vector3::Cross`. -/
def Cross (a b : Vector3d) : Vector3d :=
  ⟨a.Y * b.Z - a.Z * b.Y, a.Z * b.X - a.X * b.Z, a.X * b.Y - a.Y * b.X⟩

/-- The member `Vector3::SquaredLength`. -/
def SquaredLength (a : Vector3d) : ℚ := a.X * a.X + a.Y * a.Y + a.Z * a.Z

end Vector3d

/-! ## ODE data reachable from the plugin -/

/-- An ODE geometry handle. -/
abbrev dGeomID := Nat

/-- An ODE body handle. -/
abbrev dBodyID := Nat

/-- The ODE struct `dContactGeom`: the fields the plugin reads. The arrays `pos` and
`normal` are vectors of their first three entries. -/
structure dContactGeom where
  pos : Vector3d
  normal : Vector3d
  g1 : dGeomID
  g2 : dGeomID
  deriving DecidableEq, Repr

/-- The ODE struct `dSurfaceParameters`: the fields the plugin writes. -/
structure dSurfaceParameters where
  mode : Nat
  motion1 : ℚ
  deriving DecidableEq, Repr

/-- The ODE struct `dContact`. -/
structure dContact where
  surface : dSurfaceParameters
  geom : dContactGeom
  fdir1 : Vector3d
  deriving DecidableEq, Repr

/-- Modelled from the spec: the ODE joint classes, which the plugin reaches through
`dJointGetType` and a cast to `dxJointContact`. A joint is a contact joint carrying
its `contact` member (a geometry pair and the surface parameters), or a joint of
any other class, for which `dJointGetType` differs from `dJointTypeContact`. -/
inductive dxJoint where
  | contact (c : dContact)
  | other (jointType : Nat)
  deriving DecidableEq, Repr

/-- Modelled from the spec: the per-body joint enumeration of ODE. Each body has a
finite list of joints; `dBodyGetNumJoints` is the length of the list and
`dBodyGetJoint` its indexing. -/
abbrev dBodyJoints := dBodyID → List dxJoint

/-- A `dContact*`: the handle of the joint whose `contact` member it points to. -/
abbrev dContactPtr := Nat

/-- An address on the call stack. -/
abbrev StackAddr := Nat

/-- What the text of the plugin leaves to the machine. `operator++` stores in
`currentContact` the address of its own local variable `odeContact`, and
`operator*` reads through that address after the activation of `operator++` has
ended. Where that local lives depends on the place `operator++` is called from
(`operator==`, `operator*`, or the `++contactIterator` of a loop), and what the
slot holds when it is read is whatever was written there last. `read t a` is the
result of the read number `t` of a run, made at the address `a`: a pointer to a
contact record or, with `none`, nothing that can be used as one. -/
structure Machine where
  addrInEq : StackAddr
  addrInDeref : StackAddr
  addrInLoop : StackAddr
  read : Nat → StackAddr → Option dContactPtr

/-! ## ContactIterator -/

/-- The class `SimpleTrackedVehiclePlugin::ContactIterator`. The member
`currentContact` is a pointer to a `dContact*`: `none` for `nullptr`, otherwise the
address of the local `odeContact` of the activation of `operator++` that set it. -/
structure ContactIterator where
  currentContact : Option StackAddr
  jointIndex : Nat
  body : dBodyID
  geom1 : dGeomID
  geom2 : dGeomID
  initialized : Bool
  deriving DecidableEq, Repr

namespace ContactIterator

/-- The constructor `ContactIterator(dBodyID, dGeomID, dGeomID)`. -/
def mk3 (_body : dBodyID) (_geom1 _geom2 : dGeomID) : ContactIterator :=
  { currentContact := none, jointIndex := 0, body := _body,
    geom1 := _geom1, geom2 := _geom2, initialized := false }

/-- The constructor `ContactIterator(bool)`. It sets `currentContact` and
`initialized` only; the members it leaves indeterminate are 0 here. -/
def mk1 (_initialized : Bool) : ContactIterator :=
  { currentContact := none, jointIndex := 0, body := 0,
    geom1 := 0, geom2 := 0, initialized := _initialized }

/-- The static member `ContactIterator::begin`. -/
def begin (_body : dBodyID) (_geom1 _geom2 : dGeomID) : ContactIterator :=
  mk3 _body _geom1 _geom2

/-- The static member `ContactIterator::end`. -/
def «end» : ContactIterator := mk1 true

/-- The loop of `operator++` over the joints of the body, from `jointIndex` on.
It returns the position of the contact joint it stops at (or `none`) and the value
`jointIndex` has when the loop is left. -/
def scan (joints : List dxJoint) (geom1 geom2 : dGeomID) (jointIndex : Nat) :
    Option Nat × Nat :=
  if h : jointIndex < joints.length then
    match joints[jointIndex] with
    | dxJoint.other _ => scan joints geom1 geom2 (jointIndex + 1)
    | dxJoint.contact odeContact =>
      if (!(odeContact.geom.g1 == geom1 && odeContact.geom.g2 == geom2)) &&
          (!(odeContact.geom.g1 == geom2 && odeContact.geom.g2 == geom1)) then
        scan joints geom1 geom2 (jointIndex + 1)
      else
        (some jointIndex, jointIndex + 1)
  else
    (none, jointIndex)
termination_by joints.length - jointIndex

/-- The member `ContactIterator::operator++()`: the iterator after the call.
`odeContactAddr` is the address of the local `odeContact` of this activation, which
`this->currentContact = &odeContact` stores when a contact is found. -/
def operatorInc (odeContactAddr : StackAddr) (joints : dBodyJoints) (it : ContactIterator) :
    ContactIterator :=
  if it.initialized && it.currentContact.isNone then
    it
  else
    let r := scan (joints it.body) it.geom1 it.geom2 it.jointIndex
    { it with
      currentContact := r.1.map (fun _ => odeContactAddr),
      jointIndex := r.2,
      initialized := true }

/-- The member `ContactIterator::operator==`: the result and the left operand
after the call. The right operand is not modified. `odeContactAddr` is the address
of the local of the `operator++` it may call. -/
def operatorEq (odeContactAddr : StackAddr) (joints : dBodyJoints)
    (it _rhs : ContactIterator) : Bool × ContactIterator :=
  let it1 :=
    if it.currentContact.isNone && !it.initialized then operatorInc odeContactAddr joints it
    else it
  (it1.currentContact == _rhs.currentContact && it1.initialized == _rhs.initialized, it1)

/-- The member `ContactIterator::operator!=`. -/
def operatorNe (odeContactAddr : StackAddr) (joints : dBodyJoints)
    (it _rhs : ContactIterator) : Bool × ContactIterator :=
  let r := operatorEq odeContactAddr joints it _rhs
  (!r.1, r.2)

/-- The member `ContactIterator::operator*`, `return *this->currentContact`: the
pointer found at the address `currentContact` holds, as the machine returns it with
`readSlot`, and the iterator after the call; no pointer when `currentContact` is
`nullptr` or the slot holds none. -/
def operatorDeref (odeContactAddr : StackAddr) (readSlot : StackAddr → Option dContactPtr)
    (joints : dBodyJoints) (it : ContactIterator) : Option dContactPtr × ContactIterator :=
  let it1 := if !it.initialized then operatorInc odeContactAddr joints it else it
  (it1.currentContact.bind readSlot, it1)

end ContactIterator

/-- The iteration protocol of `DriveTracks`:
`for (it = begin(body, geom1, geom2); it != end(); ++it) { odeContact = *it; ... }`,
started at `it` when `reads` reads of a dead slot have been made. It returns the
pointers bound to `odeContact`, in the order of the loop; `none` when the fuel does
not suffice or a dereference gives no pointer. -/
def forEachContact (mc : Machine) (joints : dBodyJoints) : Nat → Nat → ContactIterator →
    Option (List dContactPtr)
  | 0, _, _ => none
  | fuel + 1, reads, it =>
    let t := ContactIterator.operatorNe mc.addrInEq joints it ContactIterator.end
    if t.1 then
      let d := ContactIterator.operatorDeref mc.addrInDeref (mc.read reads) joints t.2
      match d.1 with
      | none => none
      | some p =>
        (forEachContact mc joints fuel (reads + 1)
          (ContactIterator.operatorInc mc.addrInLoop joints d.2)).map (fun ps => p :: ps)
    else
      some []

/-- The contact records the claim speaks of: the joint is of contact type and its
geometry pair is `(gA, gB)` or `(gB, gA)`. -/
def matchingContact (gA gB : dGeomID) : dxJoint → Option dContact
  | dxJoint.contact c =>
    if (c.geom.g1 = gA ∧ c.geom.g2 = gB) ∨ (c.geom.g1 = gB ∧ c.geom.g2 = gA) then some c
    else none
  | dxJoint.other _ => none

/-- The matching contacts among the joints at positions `j` and later, each with
its position. -/
def matchingFrom (joints : List dxJoint) (gA gB : dGeomID) (j : Nat) :
    List (Nat × dContact) :=
  ((joints.drop j).enumFrom j).filterMap
    (fun p => (matchingContact gA gB p.2).map (fun c => (p.1, c)))

/-- The iterator an `operator++` with its local at `addr` leaves behind when its
loop starts at position `j`. -/
def advanced (addr : StackAddr) (joints : dBodyJoints) (b : dBodyID) (gA gB : dGeomID)
    (j : Nat) : ContactIterator :=
  { currentContact := (ContactIterator.scan (joints b) gA gB j).1.map (fun _ => addr),
    jointIndex := (ContactIterator.scan (joints b) gA gB j).2,
    body := b, geom1 := gA, geom2 := gB, initialized := true }

/-- The pointers `n` passes of the loop body bind to `odeContact`, the first read
being made at the address `addr` and the later ones at the address of the local of
the `operator++` the loop calls. -/
def readsFrom (mc : Machine) : Nat → StackAddr → Nat → Option (List dContactPtr)
  | 0, _, _ => some []
  | n + 1, addr, reads =>
    match mc.read reads addr with
    | none => none
    | some p => (readsFrom mc n mc.addrInLoop (reads + 1)).map (fun ps => p :: ps)

/-- A machine on which every dead slot holds the pointer to joint 0 whenever it is
read. -/
def staleMachine : Machine :=
  { addrInEq := 100, addrInDeref := 101, addrInLoop := 102, read := fun _ _ => some 0 }

/-- A machine on which a dead slot never holds a pointer that can be used. -/
def deadMachine : Machine :=
  { addrInEq := 100, addrInDeref := 101, addrInLoop := 102, read := fun _ _ => none }

/-- A contact record between geometries `a` and `b`, all other fields zero. -/
def sampleContact (a b : dGeomID) : dContact :=
  { surface := ⟨0, 0⟩, geom := ⟨⟨0, 0, 0⟩, ⟨0, 0, 1⟩, a, b⟩, fdir1 := ⟨0, 0, 0⟩ }

/-- A sample world: body 1 carries six joints, four of them contacts; every other
body carries none. -/
def sampleJoints : dBodyJoints := fun b =>
  if b = 1 then
    [dxJoint.other 2, dxJoint.contact (sampleContact 5 6), dxJoint.contact (sampleContact 6 5),
      dxJoint.contact (sampleContact 5 7), dxJoint.other 1, dxJoint.contact (sampleContact 5 6)]
  else []

/-! ## ignition::math helpers used by the friction solver -/

/-- The function `ignition::math::signum`: `(0 < v) - (v < 0)`. -/
def signum (v : ℚ) : Int := (if 0 < v then 1 else 0) - (if v < 0 then 1 else 0)

/-- The function `ignition::math::equal` with its default tolerance `1e-6`. -/
def equal (a b : ℚ) : Bool := decide (|a - b| ≤ 1 / 1000000)

/-- The member `Vector3::Length`; `sqrt` stands for `std::sqrt`. -/
def Vector3d.Length (sqrt : ℚ → ℚ) (a : Vector3d) : ℚ :=
  sqrt (a.X * a.X + a.Y * a.Y + a.Z * a.Z)

/-- The member `Vector3::Normalize`: the components are divided by the length
unless the length is within the tolerance of zero. -/
def Vector3d.Normalize (sqrt : ℚ → ℚ) (a : Vector3d) : Vector3d :=
  let d := a.Length sqrt
  if !equal d 0 then ⟨a.X / d, a.Y / d, a.Z / d⟩ else a

/-- The class `ignition::math::Quaterniond`. -/
structure Quaterniond where
  W : ℚ
  X : ℚ
  Y : ℚ
  Z : ℚ
  deriving DecidableEq, Repr

namespace Quaterniond

/-- The member `Quaternion::operator*` taking a quaternion. -/
def mul (a b : Quaterniond) : Quaterniond :=
  ⟨a.W * b.W - a.X * b.X - a.Y * b.Y - a.Z * b.Z,
   a.W * b.X + a.X * b.W + a.Y * b.Z - a.Z * b.Y,
   a.W * b.Y - a.X * b.Z + a.Y * b.W + a.Z * b.X,
   a.W * b.Z + a.X * b.Y - a.Y * b.X + a.Z * b.W⟩

/-- The member `Quaternion::Inverse`. -/
def Inverse (q : Quaterniond) : Quaterniond :=
  let s := q.W * q.W + q.X * q.X + q.Y * q.Y + q.Z * q.Z
  if equal s 0 then ⟨1, 0, 0, 0⟩ else ⟨q.W / s, -q.X / s, -q.Y / s, -q.Z / s⟩

/-- The member `Quaternion::RotateVector`. -/
def RotateVector (q : Quaterniond) (_vec : Vector3d) : Vector3d :=
  let tmp := q.mul ((Quaterniond.mk 0 _vec.X _vec.Y _vec.Z).mul q.Inverse)
  ⟨tmp.X, tmp.Y, tmp.Z⟩

/-- The member `Quaternion::RotateVectorReverse`. -/
def RotateVectorReverse (q : Quaterniond) (_vec : Vector3d) : Vector3d :=
  let tmp := q.Inverse.mul ((Quaterniond.mk 0 _vec.X _vec.Y _vec.Z).mul q)
  ⟨tmp.X, tmp.Y, tmp.Z⟩

end Quaterniond

/-- The class `ignition::math::Pose3d`. -/
structure Pose3d where
  Pos : Vector3d
  Rot : Quaterniond
  deriving DecidableEq, Repr

/-! ## The friction solver -/

/-- The member `SimpleTrackedVehiclePlugin::ComputeFrictionDirection`; `sqrt`
stands for `std::sqrt`. -/
def ComputeFrictionDirection (sqrt : ℚ → ℚ) (_linearSpeed _angularSpeed : ℚ)
    (_drivingStraight : Bool) (_bodyPose : Pose3d)
    (_bodyYAxisGlobal _centerOfRotation : Vector3d) (_odeContact : dContact)
    (_beltDirection : Vector3d) : Vector3d :=
  let contactNormal : Vector3d :=
    ⟨_odeContact.geom.normal.X, _odeContact.geom.normal.Y, _odeContact.geom.normal.Z⟩
  if !_drivingStraight then
    let contactPos : Vector3d :=
      ⟨_odeContact.geom.pos.X, _odeContact.geom.pos.Y, _odeContact.geom.pos.Z⟩
    let COR2Contact := (contactPos.sub _centerOfRotation).Normalize sqrt
    let frictionDirection := contactNormal.Cross COR2Contact
    let contactInVehiclePos :=
      _bodyPose.Rot.RotateVectorReverse (contactPos.sub _bodyPose.Pos)
    let linearSpeedSignum : Int :=
      if |_linearSpeed| > 1 / 10 then signum _linearSpeed else 1
    let frictionDirection :=
      if signum _angularSpeed * signum (_bodyYAxisGlobal.Dot frictionDirection) ≠
          linearSpeedSignum * signum (contactInVehiclePos.Dot ⟨1, 0, 0⟩) then
        frictionDirection.neg
      else frictionDirection
    let frictionDirection :=
      if _linearSpeed < 0 then frictionDirection.neg else frictionDirection
    frictionDirection
  else
    let frictionDirection := contactNormal.Cross _bodyYAxisGlobal
    let frictionDirection :=
      if frictionDirection.Dot _beltDirection < 0 then frictionDirection.neg
      else frictionDirection
    frictionDirection

/-- The member `SimpleTrackedVehiclePlugin::ComputeSurfaceMotion`. -/
def ComputeSurfaceMotion (_beltSpeed : ℚ) (_beltDirection _frictionDirection : Vector3d) :
    ℚ :=
  -(_beltDirection.Dot _frictionDirection) * |_beltSpeed|

/-! ## The track drive controller: centre of rotation -/

/-- The member `trackVelocity`, a map keyed by `Tracks::LEFT` and `Tracks::RIGHT`. -/
structure TrackVelocity where
  LEFT : ℚ
  RIGHT : ℚ
  deriving DecidableEq, Repr

/-- The member `SimpleTrackedVehiclePlugin::SetTrackVelocity`. -/
def SetTrackVelocity (_left _right : ℚ) : TrackVelocity :=
  { LEFT := -_left, RIGHT := -_right }

namespace DriveTracks

/-- The local `linearSpeed` of `DriveTracks`. -/
def linearSpeed (leftBeltSpeed rightBeltSpeed : ℚ) : ℚ :=
  (leftBeltSpeed + rightBeltSpeed) / 2

/-- The local `angularSpeed` of `DriveTracks`; the steering efficiency and the
tracks separation are read from the base class. -/
def angularSpeed (leftBeltSpeed rightBeltSpeed steeringEfficiency tracksSeparation : ℚ) :
    ℚ :=
  -(leftBeltSpeed - rightBeltSpeed) * steeringEfficiency / tracksSeparation

/-- The local `desiredRotationRadiusSigned` of `DriveTracks`; `none` is the
sentinel `dInfinity`. -/
def desiredRotationRadiusSigned (linearSpeed angularSpeed : ℚ) : Option ℚ :=
  if |angularSpeed| < 1 / 10 then
    none
  else if |linearSpeed| < 1 / 10 then
    some 0
  else
    some (linearSpeed / angularSpeed)

/-- The local `centerOfRotation` of `DriveTracks`:
`(bodyYAxisGlobal * desiredRotationRadiusSigned) + bodyPose.Pos()`. With the radius
`dInfinity` every component of the product is an infinity or a NaN, so the vector
is no finite point: `none`. -/
def centerOfRotation (bodyYAxisGlobal : Vector3d) (desiredRotationRadiusSigned : Option ℚ)
    (bodyPosePos : Vector3d) : Option Vector3d :=
  match desiredRotationRadiusSigned with
  | none => none
  | some r => some ((bodyYAxisGlobal.scale r).add bodyPosePos)

/-- The argument `desiredRotationRadiusSigned == dInfinity` that `DriveTracks`
passes to `ComputeFrictionDirection` as `_drivingStraight`. -/
def drivingStraight (desiredRotationRadiusSigned : Option ℚ) : Bool :=
  desiredRotationRadiusSigned.isNone

/-- The local `bodyYAxisGlobal` of `DriveTracks`. -/
def bodyYAxisGlobal (bodyPose : Pose3d) : Vector3d :=
  bodyPose.Rot.RotateVector ⟨0, 1, 0⟩

end DriveTracks

/-! ## Sample inputs of the friction solver -/

/-- A body pose at the origin with the identity rotation. -/
def samplePose : Pose3d := { Pos := ⟨0, 0, 0⟩, Rot := ⟨1, 0, 0, 0⟩ }

/-- A contact between geometries 1 and 2 with the given normal and position. -/
def contactWith (normal pos : Vector3d) : dContact :=
  { surface := ⟨0, 0⟩, geom := ⟨pos, normal, 1, 2⟩, fdir1 := ⟨0, 0, 0⟩ }

/-! ## The track drive controller: the pass over the contacts -/

/-- An ODE joint handle. -/
abbrev dJointID := Nat

/-- Modelled from the spec: the ODE objects `DriveTracks` reaches. Joints are
objects of their own, and a joint attached to two bodies is in the joint list of
both, so a write through one list is seen through the other. -/
structure dWorld where
  joint : dJointID → dxJoint
  bodyJoint : dBodyID → List dJointID

/-- The joint lists of the bodies of a world, as the iterator reads them. -/
def dWorld.joints (w : dWorld) : dBodyJoints := fun b => (w.bodyJoint b).map w.joint

/-- The assignment of the record `c` to `*odeContact` through the contact pointer
`p`. -/
def dWorld.store (w : dWorld) (p : dContactPtr) (c : dContact) : dWorld :=
  { w with joint := fun j => if j = p then dxJoint.contact c else w.joint j }

/-- The class `physics::Collision` as `DriveTracks` reads it:
`GetSurface()->collideWithoutContact`, `GetLink()->GetEnabled()`, `IsStatic()`, the
ODE body of its link (`GetODEId()`, 0 for the null handle) and its ODE geometry
(`GetCollisionId()`). -/
structure Collision where
  collideWithoutContact : Bool
  linkEnabled : Bool
  IsStatic : Bool
  ODEId : dBodyID
  CollisionId : dGeomID
  deriving DecidableEq, Repr

/-- The class `physics::Contact`: the two collisions. -/
structure Contact where
  collision1 : Collision
  collision2 : Collision
  deriving DecidableEq, Repr

/-- What `DriveTracks` reads besides the ODE joints: the members of the plugin, the
values its collaborators return during the call, and the constants declared
outside the plugin source (`BELT_CATEGORY`, `LEFT_CATEGORY`, `dContactFDir1`,
`dContactMotion1`, `std::sqrt`). -/
structure PluginState where
  sqrt : ℚ → ℚ
  BELT_CATEGORY : Nat
  LEFT_CATEGORY : Nat
  dContactFDir1 : Nat
  dContactMotion1 : Nat
  trackVelocity : TrackVelocity
  steeringEfficiency : ℚ
  tracksSeparation : ℚ
  bodyPose : Pose3d
  contactCount : Nat
  contacts : List Contact
  categoryBits : dGeomID → Nat

/-- What a run of `DriveTracks` has done so far: the ODE objects, the contacts a
warning was written for, in order, and the number of reads made through the
iterator. -/
structure DriveState where
  world : dWorld
  warned : List Contact
  reads : Nat

namespace DriveTracks

/-- The local `linearSpeed` for the stored track velocities. -/
def linearSpeedOf (P : PluginState) : ℚ :=
  linearSpeed P.trackVelocity.LEFT P.trackVelocity.RIGHT

/-- The local `angularSpeed` for the stored track velocities. -/
def angularSpeedOf (P : PluginState) : ℚ :=
  angularSpeed P.trackVelocity.LEFT P.trackVelocity.RIGHT P.steeringEfficiency
    P.tracksSeparation

/-- The local `desiredRotationRadiusSigned` for the stored track velocities. -/
def radiusOf (P : PluginState) : Option ℚ :=
  desiredRotationRadiusSigned (linearSpeedOf P) (angularSpeedOf P)

/-- The local `beltDirection` of the inner loop: `contactNormal x bodyYAxisGlobal`,
negated when the belt speed is positive. -/
def beltDirection (P : PluginState) (beltSpeed : ℚ) (odeContact : dContact) : Vector3d :=
  let contactNormal : Vector3d :=
    ⟨odeContact.geom.normal.X, odeContact.geom.normal.Y, odeContact.geom.normal.Z⟩
  let beltDirection := contactNormal.Cross (bodyYAxisGlobal P.bodyPose)
  if beltSpeed > 0 then beltDirection.neg else beltDirection

/-- The local `frictionDirection` of the inner loop. When the radius is `dInfinity`
the centre of rotation is no finite point; the solver is then called with
`_drivingStraight` true and the zero vector stands for the centre. -/
def frictionDirection (P : PluginState) (beltSpeed : ℚ) (odeContact : dContact) : Vector3d :=
  ComputeFrictionDirection P.sqrt (linearSpeedOf P) (angularSpeedOf P)
    (drivingStraight (radiusOf P)) P.bodyPose (bodyYAxisGlobal P.bodyPose)
    ((centerOfRotation (bodyYAxisGlobal P.bodyPose) (radiusOf P) P.bodyPose.Pos).getD ⟨0, 0, 0⟩)
    odeContact (beltDirection P beltSpeed odeContact)

/-- The body of the inner loop of `DriveTracks`: the contact record after the
writes to `fdir1`, `surface.mode` and `surface.motion1`. -/
def writeContact (P : PluginState) (beltSpeed : ℚ) (odeContact : dContact) : dContact :=
  { odeContact with
    fdir1 := ⟨(frictionDirection P beltSpeed odeContact).X,
      (frictionDirection P beltSpeed odeContact).Y,
      (frictionDirection P beltSpeed odeContact).Z⟩,
    surface :=
      { mode := odeContact.surface.mode ||| (P.dContactFDir1 ||| P.dContactMotion1),
        motion1 := ComputeSurfaceMotion beltSpeed (beltDirection P beltSpeed odeContact)
          (frictionDirection P beltSpeed odeContact) } }

/-- The inner loop of `DriveTracks`,
`for (it = begin(body1, geom1, geom2); it != end(); ++it) { ... }`, started at `it`:
the state after the loop and the value of `foundContact`. `odeContact = *it` is the
pointer the machine returns for the slot the iterator designates; the body of the
loop reads and writes the record it points to. The result is `none` when the fuel
does not suffice or the pointer read designates no contact record. -/
def contactLoop (P : PluginState) (beltSpeed : ℚ) (mc : Machine) :
    Nat → DriveState → ContactIterator → Option (DriveState × Bool)
  | 0, _, _ => none
  | fuel + 1, st, it =>
    let t := ContactIterator.operatorNe mc.addrInEq st.world.joints it ContactIterator.end
    if t.1 then
      let d := ContactIterator.operatorDeref mc.addrInDeref (mc.read st.reads)
        st.world.joints t.2
      match d.1 with
      | none => none
      | some p =>
        match st.world.joint p with
        | dxJoint.other _ => none
        | dxJoint.contact odeContact =>
          let st2 : DriveState :=
            { st with
              world := st.world.store p (writeContact P beltSpeed odeContact),
              reads := st.reads + 1 }
          (contactLoop P beltSpeed mc fuel st2
            (ContactIterator.operatorInc mc.addrInLoop st2.world.joints d.2)).map
            (fun r => (r.1, true))
    else
      some (st, false)

/-- The three early `continue` tests of the outer loop. -/
def skipped (contact : Contact) : Bool :=
  (contact.collision1.collideWithoutContact || contact.collision2.collideWithoutContact) ||
  (!contact.collision1.linkEnabled || !contact.collision2.linkEnabled) ||
  (contact.collision1.IsStatic && contact.collision2.IsStatic)

/-- The locals `body1` of the outer loop after the swap `if (body1 == 0)`. -/
def body1 (contact : Contact) : dBodyID :=
  if contact.collision1.ODEId = 0 then contact.collision2.ODEId else contact.collision1.ODEId

/-- The local `geom1` of the outer loop after the swap. -/
def geom1 (contact : Contact) : dGeomID :=
  if contact.collision1.ODEId = 0 then contact.collision2.CollisionId
  else contact.collision1.CollisionId

/-- The local `geom2` of the outer loop after the swap. -/
def geom2 (contact : Contact) : dGeomID :=
  if contact.collision1.ODEId = 0 then contact.collision1.CollisionId
  else contact.collision2.CollisionId

/-- The test `(dGeomGetCategoryBits(geom) & BELT_CATEGORY) > 0`. -/
def isTrack (P : PluginState) (geom : dGeomID) : Bool :=
  decide ((P.categoryBits geom &&& P.BELT_CATEGORY) > 0)

/-- The local `trackGeom` of the outer loop. -/
def trackGeom (P : PluginState) (contact : Contact) : dGeomID :=
  if isTrack P (geom1 contact) then geom1 contact else geom2 contact

/-- The local `beltSpeed` of the outer loop. -/
def beltSpeed (P : PluginState) (contact : Contact) : ℚ :=
  if (P.categoryBits (trackGeom P contact) &&& P.LEFT_CATEGORY) ≠ 0 then P.trackVelocity.LEFT
  else P.trackVelocity.RIGHT

/-- One pass of the body of the outer loop of `DriveTracks` for `contact`. -/
def processContact (P : PluginState) (mc : Machine) (st : DriveState) (contact : Contact) :
    Option DriveState :=
  if skipped contact then some st
  else if !isTrack P (geom1 contact) && !isTrack P (geom2 contact) then some st
  else
    match contactLoop P (beltSpeed P contact) mc
        ((st.world.bodyJoint (body1 contact)).length + 1) st
        (ContactIterator.begin (body1 contact) (geom1 contact) (geom2 contact)) with
    | none => none
    | some r => if !r.2 then some { r.1 with warned := r.1.warned ++ [contact] } else some r.1

/-- The outer loop of `DriveTracks` over the contacts still to visit, `i` being the
number of contacts visited before. -/
def contactsLoop (P : PluginState) (mc : Machine) : Nat → List Contact → DriveState →
    Option DriveState
  | _, [], st => some st
  | i, contact :: rest, st =>
    if i = P.contactCount then some st
    else
      match processContact P mc st contact with
      | none => none
      | some st2 => contactsLoop P mc (i + 1) rest st2

end DriveTracks

/-- The member `SimpleTrackedVehiclePlugin::DriveTracks` on the machine `mc`: the
state after the call, `none` when the call does not come to its end. -/
def DriveTracks (P : PluginState) (mc : Machine) (w : dWorld) : Option DriveState :=
  if P.contactCount = 0 then some ⟨w, [], 0⟩
  else DriveTracks.contactsLoop P mc 0 P.contacts ⟨w, [], 0⟩

/-! ## Terms in which the pass over the contacts is described -/

/-- What the iterator reads of a joint: whether it is a contact joint, and then its
geometry pair. -/
def jointKey : dxJoint → Option (dGeomID × dGeomID)
  | dxJoint.contact c => some (c.geom.g1, c.geom.g2)
  | dxJoint.other _ => none

/-- The test of `matchingContact` on what the iterator reads of a joint. -/
def keyMatches (gA gB : dGeomID) : Option (dGeomID × dGeomID) → Bool
  | some (g1, g2) => decide ((g1 = gA ∧ g2 = gB) ∨ (g1 = gB ∧ g2 = gA))
  | none => false

/-- The positions of the joints of body `b` that are contacts between `gA` and `gB`. -/
def matchingPositions (w : dWorld) (b : dBodyID) (gA gB : dGeomID) : List Nat :=
  (matchingFrom (w.joints b) gA gB 0).map Prod.fst

/-- Two worlds with the same joint lists and, joint by joint, the same joint kind
and geometry pair. -/
def sameKeys (w w2 : dWorld) : Prop :=
  w2.bodyJoint = w.bodyJoint ∧ ∀ j, jointKey (w2.joint j) = jointKey (w.joint j)

/-- Every read through a dead slot returns a pointer to some contact record of the
world. -/
def validReads (mc : Machine) (w : dWorld) : Prop :=
  ∀ (t : Nat) (a : StackAddr), ∃ (j : dJointID) (c : dContact),
    mc.read t a = some j ∧ w.joint j = dxJoint.contact c

namespace DriveTracks

/-- Whether the body of the outer loop leaves `contact` by one of its `continue`
statements before the inner loop. -/
def filtered (P : PluginState) (contact : Contact) : Bool :=
  skipped contact || (!isTrack P (geom1 contact) && !isTrack P (geom2 contact))

/-- The joints the enumerator is meant to yield for `contact`: none when the
contact is filtered, otherwise the contact joints of body 1 between the two
geometries. -/
def targets (P : PluginState) (w : dWorld) (contact : Contact) : List dJointID :=
  if skipped contact || (!isTrack P (geom1 contact) && !isTrack P (geom2 contact)) then []
  else
    (matchingPositions w (body1 contact) (geom1 contact) (geom2 contact)).filterMap
      (fun p => (w.bodyJoint (body1 contact))[p]?)

/-- The number of passes of the inner loop for `contact`. -/
def passCount (P : PluginState) (w : dWorld) (contact : Contact) : Nat :=
  if filtered P contact then 0
  else (matchingPositions w (body1 contact) (geom1 contact) (geom2 contact)).length

/-- The effect of `n` passes of the body of the inner loop, the first read being
made at the address `addr` and the later ones at the address of the local of the
`operator++` the loop calls. -/
def writeReads (P : PluginState) (beltSpeed : ℚ) (mc : Machine) :
    Nat → StackAddr → DriveState → Option DriveState
  | 0, _, st => some st
  | n + 1, addr, st =>
    match mc.read st.reads addr with
    | none => none
    | some p =>
      match st.world.joint p with
      | dxJoint.other _ => none
      | dxJoint.contact odeContact =>
        writeReads P beltSpeed mc n mc.addrInLoop
          { st with
            world := st.world.store p (writeContact P beltSpeed odeContact),
            reads := st.reads + 1 }

/-- The pointers the enumerator yields in the pass of the outer loop for `contact`
that begins after `reads` reads: none for a contact that is filtered. -/
def passYields (P : PluginState) (mc : Machine) (w : dWorld) (reads : Nat)
    (contact : Contact) : Option (List dContactPtr) :=
  if filtered P contact then some []
  else
    forEachContact mc w.joints ((w.bodyJoint (body1 contact)).length + 1) reads
      (ContactIterator.begin (body1 contact) (geom1 contact) (geom2 contact))

/-- The pointers the enumerator yields in the passes of the outer loop for the
contacts `l`, in the order of the run. -/
def runYields (P : PluginState) (mc : Machine) (w : dWorld) :
    List Contact → Nat → Option (List dContactPtr)
  | [], _ => some []
  | contact :: rest, reads =>
    match passYields P mc w reads contact with
    | none => none
    | some ys => (runYields P mc w rest (reads + ys.length)).map (fun zs => ys ++ zs)

/-- In the words of the specification: what the write-back of the inner loop, made
with the belt speed `beltSpeed`, leaves in `c1` of the contact record `c0` it
read. -/
def writeBackSpec (P : PluginState) (beltSpeed : ℚ) (c0 c1 : dContact) : Prop :=
  c1.fdir1 =
    ComputeFrictionDirection P.sqrt (linearSpeedOf P) (angularSpeedOf P)
      (drivingStraight (radiusOf P)) P.bodyPose (bodyYAxisGlobal P.bodyPose)
      ((centerOfRotation (bodyYAxisGlobal P.bodyPose) (radiusOf P) P.bodyPose.Pos).getD
        ⟨0, 0, 0⟩)
      c0 (beltDirection P beltSpeed c0) ∧
  c1.surface.motion1 =
    ComputeSurfaceMotion beltSpeed (beltDirection P beltSpeed c0) c1.fdir1 ∧
  c1.surface.mode &&& P.dContactFDir1 = P.dContactFDir1 ∧
  c1.surface.mode &&& P.dContactMotion1 = P.dContactMotion1 ∧
  (∀ i : Nat, c1.surface.mode.testBit i =
    (c0.surface.mode.testBit i || P.dContactFDir1.testBit i ||
      P.dContactMotion1.testBit i)) ∧
  c1.geom = c0.geom

end DriveTracks

/-! ## SetGeomCategories -/

/-- A link of the model. -/
abbrev LinkId := Nat

/-- The enum `Tracks`, the key type of the members `tracks` and `trackVelocity`. -/
inductive Tracks where
  | LEFT
  | RIGHT
  deriving DecidableEq, Repr

/-- Modelled from the spec: the links `SetGeomCategories` walks over. `GetLinks` is
`body->GetModel()->GetLinks()`, and `GetChildJointsLinks` gives for every link the
child links of the joints it is the parent of. -/
structure ModelLinks where
  GetLinks : List LinkId
  GetChildJointsLinks : LinkId → List LinkId

/-- The category bits of the collisions of every link, in the order of
`GetCollisions()`; a collision belongs to one link. -/
abbrev CategoryBits := LinkId → List Nat

/-- The loop `for (auto collision : link->GetCollisions())
collision->SetCategoryBits(bits)`. -/
def setLinkCategoryBits (s : CategoryBits) (link : LinkId) (bits : Nat) : CategoryBits :=
  fun l => if l = link then (s l).map (fun _ => bits) else s l

namespace SetGeomCategories

/-- The loop `while (!linksToProcess.empty())` of `SetGeomCategories`: the last link
is taken off the list, its child links are appended and its collisions get
`ROBOT_CATEGORY`; `none` when the fuel does not suffice. -/
def robotLoop (M : ModelLinks) (ROBOT_CATEGORY : Nat) : Nat → List LinkId → CategoryBits →
    Option CategoryBits
  | 0, linksToProcess, s => if linksToProcess = [] then some s else none
  | fuel + 1, linksToProcess, s =>
    match linksToProcess.getLast? with
    | none => some s
    | some link =>
      robotLoop M ROBOT_CATEGORY fuel
        (linksToProcess.dropLast ++ M.GetChildJointsLinks link)
        (setLinkCategoryBits s link ROBOT_CATEGORY)

/-- The loop `for (auto track : this->tracks)` of `SetGeomCategories`, over the
entries of the map in the order of the iteration. -/
def trackLoop (ROBOT_CATEGORY BELT_CATEGORY LEFT_CATEGORY : Nat) :
    List (Tracks × LinkId) → CategoryBits → CategoryBits
  | [], s => s
  | track :: rest, s =>
    let bits := ROBOT_CATEGORY ||| BELT_CATEGORY
    let bits := if track.1 = Tracks.LEFT then bits ||| LEFT_CATEGORY else bits
    trackLoop ROBOT_CATEGORY BELT_CATEGORY LEFT_CATEGORY rest
      (setLinkCategoryBits s track.2 bits)

end SetGeomCategories

/-- The member `SimpleTrackedVehiclePlugin::SetGeomCategories`: the category bits
after the call; `none` when the fuel of the first loop does not suffice. The
collide bits it also sets are not part of the state. -/
def SetGeomCategories (fuel : Nat) (M : ModelLinks) (tracks : List (Tracks × LinkId))
    (ROBOT_CATEGORY BELT_CATEGORY LEFT_CATEGORY : Nat) (s : CategoryBits) :
    Option CategoryBits :=
  (SetGeomCategories.robotLoop M ROBOT_CATEGORY fuel M.GetLinks s).map
    (SetGeomCategories.trackLoop ROBOT_CATEGORY BELT_CATEGORY LEFT_CATEGORY tracks)

/-- A sample model: the chassis 0 is the parent of the left track 1 and of the right
track 2, the left track is the parent of a flipper 3. -/
def sampleModel : ModelLinks :=
  { GetLinks := [0, 1, 2, 3],
    GetChildJointsLinks := fun l => if l = 0 then [1, 2] else if l = 1 then [3] else [] }

/-- The category bits of the sample model before the call: the left track has two
collisions, the other links one. -/
def sampleBits : CategoryBits :=
  fun l => if l = 0 then [9] else if l = 1 then [9, 8] else if l = 2 then [9] else
    if l = 3 then [5] else []

/-! ## A sample vehicle on the ground -/

/-- A contact record between geometries `a` and `b` with the given normal and
position, its other fields zero. -/
def groundContact (normal pos : Vector3d) (a b : dGeomID) : dContact :=
  { surface := ⟨0, 0⟩, geom := ⟨pos, normal, a, b⟩, fdir1 := ⟨0, 0, 0⟩ }

/-- A sample world. Geometries: 10 left track, 11 right track, 12 chassis, 20
ground, 21 a box. Bodies: 1 the vehicle, 2 the box; the ground is static and has
the null body. Joints 0 and 3 are contacts of the left track with the ground, 1 of
the ground with the right track, 4 of the left track with the box (attached to
both bodies), 2 is no contact joint. -/
def sampleWorld : dWorld :=
  { joint := fun j =>
      match j with
      | 0 => dxJoint.contact (groundContact ⟨0, 0, 1⟩ ⟨1, 1, 0⟩ 10 20)
      | 1 => dxJoint.contact (groundContact ⟨0, 0, 1⟩ ⟨1, -1, 0⟩ 20 11)
      | 2 => dxJoint.other 3
      | 3 => dxJoint.contact (groundContact ⟨0, 0, 1⟩ ⟨-1, 1, 0⟩ 10 20)
      | 4 => dxJoint.contact (groundContact ⟨1, 0, 0⟩ ⟨2, 1, 0⟩ 10 21)
      | _ => dxJoint.other 0
    bodyJoint := fun b => if b = 1 then [0, 1, 2, 3, 4] else if b = 2 then [4] else [] }

/-- The plugin of the sample vehicle after `SetTrackVelocity(left, right)`, with the
contact manager reporting `count` contacts and the list `contacts`. The category
constants are the bits 2 (belt) and 4 (left), the mode flags the bits 2 and 32; the
identity stands for `std::sqrt`, with which it agrees at 0 and 1. -/
def samplePlugin (left right : ℚ) (count : Nat) (contacts : List Contact) : PluginState :=
  { sqrt := fun x => x,
    BELT_CATEGORY := 2,
    LEFT_CATEGORY := 4,
    dContactFDir1 := 2,
    dContactMotion1 := 32,
    trackVelocity := SetTrackVelocity left right,
    steeringEfficiency := 1 / 2,
    tracksSeparation := 2 / 5,
    bodyPose := { Pos := ⟨0, 0, 1⟩, Rot := ⟨1, 0, 0, 0⟩ },
    contactCount := count,
    contacts := contacts,
    categoryBits := fun g => if g = 10 then 7 else if g = 11 then 3 else if g = 12 then 1 else 0 }

/-- The left track on the ground. -/
def contactLeftGround : Contact :=
  { collision1 := ⟨false, true, false, 1, 10⟩, collision2 := ⟨false, true, true, 0, 20⟩ }

/-- The chassis on the ground: no belt geometry. -/
def contactChassisGround : Contact :=
  { collision1 := ⟨false, true, false, 1, 12⟩, collision2 := ⟨false, true, true, 0, 20⟩ }

/-- The left track on the ground with the link of the track disabled. -/
def contactLeftGroundDisabled : Contact :=
  { collision1 := ⟨false, false, false, 1, 10⟩, collision2 := ⟨false, true, true, 0, 20⟩ }

/-! # Theorems -/

/-! ## The contact enumerator -/

theorem matchingFrom_of_le (joints : List dxJoint) (gA gB : dGeomID) (j : Nat)
    (h : joints.length ≤ j) : matchingFrom joints gA gB j = [] := by
  simp [matchingFrom, List.drop_eq_nil_of_le h]

theorem matchingFrom_step (joints : List dxJoint) (gA gB : dGeomID) (j : Nat)
    (h : j < joints.length) :
    matchingFrom joints gA gB j =
      (match matchingContact gA gB joints[j] with
        | none => matchingFrom joints gA gB (j + 1)
        | some c => (j, c) :: matchingFrom joints gA gB (j + 1)) := by
  unfold matchingFrom
  rw [List.drop_eq_getElem_cons h, List.enumFrom_cons, List.filterMap_cons]
  cases matchingContact gA gB joints[j] <;> rfl

theorem skip_iff (a b gA gB : dGeomID) :
    ((!(a == gA && b == gB)) && (!(a == gB && b == gA))) = true ↔
      ¬ ((a = gA ∧ b = gB) ∨ (a = gB ∧ b = gA)) := by
  by_cases h1 : a = gA <;> by_cases h2 : b = gB <;> by_cases h3 : a = gB <;>
    by_cases h4 : b = gA <;> simp [h1, h2, h3, h4]

/-- One run of the loop of `operator++` from position `j`: either it finds nothing
and no joint from `j` on matches, or it stops at the first matching joint `k`. -/
theorem scan_spec (joints : List dxJoint) (gA gB : dGeomID) (j : Nat) :
    ((ContactIterator.scan joints gA gB j).1 = none ∧ matchingFrom joints gA gB j = []) ∨
    (∃ (k : Nat) (c : dContact), ContactIterator.scan joints gA gB j = (some k, k + 1) ∧
      j ≤ k ∧ joints[k]? = some (dxJoint.contact c) ∧
      matchingFrom joints gA gB j = (k, c) :: matchingFrom joints gA gB (k + 1)) := by
  induction j using ContactIterator.scan.induct joints gA gB with
  | case1 x h t hx ih =>
    rw [ContactIterator.scan, dif_pos h, matchingFrom_step joints gA gB x h]
    simp only [hx, matchingContact]
    rcases ih with ih | ⟨k, c, h1, h2, h3⟩
    · exact Or.inl ih
    · exact Or.inr ⟨k, c, h1, by omega, h3⟩
  | case2 x h c hx hc ih =>
    rw [ContactIterator.scan, dif_pos h, matchingFrom_step joints gA gB x h]
    simp only [hx, matchingContact, hc, if_true]
    have : ¬ ((c.geom.g1 = gA ∧ c.geom.g2 = gB) ∨ (c.geom.g1 = gB ∧ c.geom.g2 = gA)) :=
      (skip_iff _ _ _ _).1 hc
    simp only [this, if_false]
    rcases ih with ih | ⟨k, c, h1, h2, h3⟩
    · exact Or.inl ih
    · exact Or.inr ⟨k, c, h1, by omega, h3⟩
  | case3 x h c hx hc =>
    rw [ContactIterator.scan, dif_pos h, matchingFrom_step joints gA gB x h]
    simp only [hx, matchingContact, hc]
    have : ((c.geom.g1 = gA ∧ c.geom.g2 = gB) ∨ (c.geom.g1 = gB ∧ c.geom.g2 = gA)) := by
      by_contra hn
      exact hc ((skip_iff _ _ _ _).2 hn)
    simp only [this, if_true]
    right
    exact ⟨x, c, rfl, le_refl x, by rw [List.getElem?_eq_getElem h, hx], rfl⟩
  | case4 x h =>
    rw [ContactIterator.scan, dif_neg h]
    left
    exact ⟨rfl, matchingFrom_of_le joints gA gB x (Nat.le_of_not_lt h)⟩

theorem matchingFrom_eq_nil (joints : List dxJoint) (gA gB : dGeomID) (j : Nat)
    (hno : ∀ x ∈ joints, matchingContact gA gB x = none) :
    matchingFrom joints gA gB j = [] := by
  unfold matchingFrom
  rw [List.filterMap_eq_nil_iff]
  intro p hp
  have hmem : p.2 ∈ joints := by
    have h1 : p.2 ∈ (List.enumFrom j (List.drop j joints)).map Prod.snd :=
      List.mem_map_of_mem Prod.snd hp
    rw [List.enumFrom_map_snd] at h1
    exact List.mem_of_mem_drop h1
  simp [hno p.2 hmem]

theorem scan_eq_none (joints : List dxJoint) (gA gB : dGeomID) (j : Nat)
    (hno : ∀ x ∈ joints, matchingContact gA gB x = none) :
    (ContactIterator.scan joints gA gB j).1 = none := by
  rcases scan_spec joints gA gB j with ⟨h1, _⟩ | ⟨k, c, _, _, _, h4⟩
  · exact h1
  · rw [matchingFrom_eq_nil joints gA gB j hno] at h4
    cases h4

theorem forEachContact_advanced (mc : Machine) (joints : dBodyJoints) (b : dBodyID)
    (gA gB : dGeomID) :
    ∀ (fuel j reads : Nat) (a : StackAddr), (joints b).length - j < fuel →
      forEachContact mc joints fuel reads (advanced a joints b gA gB j) =
        readsFrom mc (matchingFrom (joints b) gA gB j).length a reads := by
  intro fuel
  induction fuel with
  | zero => intro j reads a h; omega
  | succ fuel ih =>
    intro j reads a h
    rcases scan_spec (joints b) gA gB j with ⟨h1, h2⟩ | ⟨k, c, h1, h2, h3, h4⟩
    · simp [forEachContact, advanced, ContactIterator.operatorNe, ContactIterator.operatorEq,
        ContactIterator.end, ContactIterator.mk1, h1, h2, readsFrom]
    · have hk : k < (joints b).length := by
        rcases Nat.lt_or_ge k (joints b).length with hlt | hge
        · exact hlt
        · rw [List.getElem?_eq_none hge] at h3; cases h3
      have hrec := ih (k + 1) (reads + 1) mc.addrInLoop (by omega)
      simp only [advanced] at hrec
      rw [h4, List.length_cons, readsFrom]
      cases hr : mc.read reads a with
      | none =>
        simp [forEachContact, advanced, ContactIterator.operatorNe, ContactIterator.operatorEq,
          ContactIterator.end, ContactIterator.mk1, ContactIterator.operatorDeref, h1, hr]
      | some p =>
        simp [forEachContact, advanced, ContactIterator.operatorNe, ContactIterator.operatorEq,
          ContactIterator.end, ContactIterator.mk1, ContactIterator.operatorDeref,
          ContactIterator.operatorInc, h1, hr, hrec]

theorem forEachContact_begin (mc : Machine) (joints : dBodyJoints) (b : dBodyID)
    (gA gB : dGeomID) (fuel reads : Nat) :
    forEachContact mc joints fuel reads (ContactIterator.begin b gA gB) =
      forEachContact mc joints fuel reads (advanced mc.addrInEq joints b gA gB 0) := by
  cases fuel with
  | zero => rfl
  | succ fuel =>
    simp [forEachContact, advanced, ContactIterator.operatorNe, ContactIterator.operatorEq,
      ContactIterator.begin, ContactIterator.mk3, ContactIterator.operatorInc]

theorem matchingFrom_zero_length (joints : List dxJoint) (gA gB : dGeomID) :
    (matchingFrom joints gA gB 0).length = (joints.filterMap (matchingContact gA gB)).length := by
  have h : ∀ (l : List dxJoint) (n : Nat),
      ((l.enumFrom n).filterMap
        (fun p => (matchingContact gA gB p.2).map (fun c => (p.1, c)))).length =
      (l.filterMap (matchingContact gA gB)).length := by
    intro l
    induction l with
    | nil => intro n; rfl
    | cons x l ih =>
      intro n
      rw [List.enumFrom_cons, List.filterMap_cons, List.filterMap_cons]
      cases hx : matchingContact gA gB x with
      | none => simpa using ih (n + 1)
      | some c => simpa using ih (n + 1)
  simpa [matchingFrom] using h joints 0

theorem readsFrom_length (mc : Machine) :
    ∀ (n : Nat) (a : StackAddr) (reads : Nat) (ys : List dContactPtr),
      readsFrom mc n a reads = some ys → ys.length = n := by
  intro n
  induction n with
  | zero =>
    intro a reads ys h
    simp only [readsFrom, Option.some.injEq] at h
    rw [← h]; rfl
  | succ n ih =>
    intro a reads ys h
    rw [readsFrom] at h
    cases hr : mc.read reads a with
    | none => rw [hr] at h; cases h
    | some p =>
      rw [hr] at h
      simp only at h
      cases hrest : readsFrom mc n mc.addrInLoop (reads + 1) with
      | none => rw [hrest] at h; cases h
      | some ps =>
        rw [hrest] at h
        simp only [Option.map_some', Option.some.injEq] at h
        rw [← h, List.length_cons, ih _ _ _ hrest]

theorem readsFrom_mem (mc : Machine) :
    ∀ (n : Nat) (a : StackAddr) (reads : Nat) (ys : List dContactPtr),
      readsFrom mc n a reads = some ys →
      ∀ p ∈ ys, ∃ (t : Nat) (a2 : StackAddr), reads ≤ t ∧ t < reads + n ∧
        mc.read t a2 = some p := by
  intro n
  induction n with
  | zero =>
    intro a reads ys h p hp
    simp only [readsFrom, Option.some.injEq] at h
    rw [← h] at hp; cases hp
  | succ n ih =>
    intro a reads ys h p hp
    rw [readsFrom] at h
    cases hr : mc.read reads a with
    | none => rw [hr] at h; cases h
    | some q =>
      rw [hr] at h
      simp only at h
      cases hrest : readsFrom mc n mc.addrInLoop (reads + 1) with
      | none => rw [hrest] at h; cases h
      | some ps =>
        rw [hrest] at h
        simp only [Option.map_some', Option.some.injEq] at h
        rw [← h] at hp
        rcases List.mem_cons.1 hp with hq | hq
        · exact ⟨reads, a, le_refl _, by omega, by rw [hr, hq]⟩
        · obtain ⟨t, a2, h1, h2, h3⟩ := ih _ _ _ hrest p hq
          exact ⟨t, a2, by omega, by omega, h3⟩

/-- C1: driven by the protocol of `DriveTracks` (start at `begin(body, gA, gB)`;
while `it != end()`: dereference, then pre-increment), the iterator makes one pass
for every joint of the body that is a contact between `gA` and `gB`, but what a
pass yields is the pointer the machine finds in the slot of a local variable of an
`operator++` that has returned, not the pointer to the record of that joint. On
body 1 of the sample world, whose contacts between the geometries 10 and 20 are
the joints 0 and 3, a machine whose dead slots hold the pointer to joint 0 yields
joint 0 twice and joint 3 never; a machine whose dead slots hold nothing usable
yields no result. -/
theorem C1_forEachContact_yields_dead_slots :
    (∀ (mc : Machine) (joints : dBodyJoints) (body : dBodyID) (gA gB : dGeomID),
      forEachContact mc joints ((joints body).length + 1) 0
          (ContactIterator.begin body gA gB) =
        readsFrom mc ((joints body).filterMap (matchingContact gA gB)).length
          mc.addrInEq 0) ∧
    (sampleWorld.joints 1).filterMap (matchingContact 10 20) =
      [groundContact ⟨0, 0, 1⟩ ⟨1, 1, 0⟩ 10 20, groundContact ⟨0, 0, 1⟩ ⟨-1, 1, 0⟩ 10 20] ∧
    DriveTracks.targets (samplePlugin 1 1 1 [contactLeftGround]) sampleWorld contactLeftGround =
      [0, 3] ∧
    forEachContact staleMachine sampleWorld.joints 6 0 (ContactIterator.begin 1 10 20) =
      some [0, 0] ∧
    forEachContact deadMachine sampleWorld.joints 6 0 (ContactIterator.begin 1 10 20) =
      none := by
  have hgen : ∀ (mc : Machine) (joints : dBodyJoints) (body : dBodyID) (gA gB : dGeomID),
      forEachContact mc joints ((joints body).length + 1) 0
          (ContactIterator.begin body gA gB) =
        readsFrom mc ((joints body).filterMap (matchingContact gA gB)).length
          mc.addrInEq 0 := by
    intro mc joints body gA gB
    rw [forEachContact_begin, forEachContact_advanced mc joints body gA gB _ 0 0 _ (by omega),
      matchingFrom_zero_length]
  have hlist : (sampleWorld.joints 1).filterMap (matchingContact 10 20) =
      [groundContact ⟨0, 0, 1⟩ ⟨1, 1, 0⟩ 10 20, groundContact ⟨0, 0, 1⟩ ⟨-1, 1, 0⟩ 10 20] := by
    decide
  have hlen : (sampleWorld.joints 1).length + 1 = 6 := by decide
  refine ⟨hgen, hlist, by decide, ?_, ?_⟩
  · have h := hgen staleMachine sampleWorld.joints 1 10 20
    rw [hlen, hlist] at h
    exact h
  · have h := hgen deadMachine sampleWorld.joints 1 10 20
    rw [hlen, hlist] at h
    exact h

/-- C2: when no joint of the body is a contact joint between the requested pair
(in either order), the first `operator++` of a fresh `begin(body, gA, gB)` leaves
the iterator with no current contact and initialized, that iterator compares equal
to `end()`, and the loop of `DriveTracks` runs its body zero times and finishes, on
every machine. -/
theorem C2_first_advance_reaches_end (mc : Machine) (addr addr2 : StackAddr)
    (joints : dBodyJoints) (body : dBodyID)
    (gA gB : dGeomID) (hno : ∀ x ∈ joints body, matchingContact gA gB x = none) :
    (ContactIterator.operatorInc addr joints (ContactIterator.begin body gA gB)).currentContact
        = none ∧
      (ContactIterator.operatorInc addr joints (ContactIterator.begin body gA gB)).initialized
        = true ∧
      (ContactIterator.operatorEq addr2 joints
        (ContactIterator.operatorInc addr joints (ContactIterator.begin body gA gB))
        ContactIterator.end).1 = true ∧
      ∀ fuel reads : Nat, 0 < fuel →
        forEachContact mc joints fuel reads (ContactIterator.begin body gA gB) = some [] := by
  have hs := scan_eq_none (joints body) gA gB 0 hno
  refine ⟨?_, ?_, ?_, ?_⟩
  · simp [ContactIterator.operatorInc, ContactIterator.begin, ContactIterator.mk3, hs]
  · simp [ContactIterator.operatorInc, ContactIterator.begin, ContactIterator.mk3]
  · simp [ContactIterator.operatorEq, ContactIterator.operatorInc, ContactIterator.begin,
      ContactIterator.mk3, ContactIterator.end, ContactIterator.mk1, hs]
  · intro fuel reads hfuel
    obtain ⟨n, rfl⟩ : ∃ n, fuel = n + 1 := ⟨fuel - 1, by omega⟩
    rw [forEachContact_begin]
    simp [forEachContact, advanced, ContactIterator.operatorNe, ContactIterator.operatorEq,
      ContactIterator.end, ContactIterator.mk1, hs]

/-- Witness of C2 on the sample world: body 1 has six joints, none of them a contact
between geometries 8 and 9. -/
theorem C2_first_advance_reaches_end_witness :
    (∀ x ∈ sampleJoints 1, matchingContact 8 9 x = none) ∧
      (ContactIterator.operatorInc 102 sampleJoints
        (ContactIterator.begin 1 8 9)).currentContact = none ∧
      forEachContact deadMachine sampleJoints 1 0 (ContactIterator.begin 1 8 9) = some [] :=
  ⟨by decide,
    (C2_first_advance_reaches_end deadMachine 102 100 sampleJoints 1 8 9 (by decide)).1,
    (C2_first_advance_reaches_end deadMachine 102 100 sampleJoints 1 8 9
      (by decide)).2.2.2 1 0 (by decide)⟩

/-! ## The centre of rotation -/

theorem centerOfRotation_some (y p : Vector3d) (r : ℚ) :
    DriveTracks.centerOfRotation y (some r) p =
      some ⟨p.X + y.X * r, p.Y + y.Y * r, p.Z + y.Z * r⟩ := by
  simp [DriveTracks.centerOfRotation, Vector3d.scale, Vector3d.add, add_comm]

/-- C3: in `DriveTracks` the signed rotation radius is the infinity sentinel, and the
driving-straight flag handed to the solver is true, when `|angularSpeed| < 0.1`;
otherwise the radius is 0 when `|linearSpeed| < 0.1`; otherwise it is
`linearSpeed / angularSpeed`; in the two finite cases the centre of rotation is
`p + y * radius` and the flag is false. -/
theorem C3_rotation_radius_cases (linearSpeed angularSpeed : ℚ) (p y : Vector3d) :
    (|angularSpeed| < 1 / 10 →
      DriveTracks.desiredRotationRadiusSigned linearSpeed angularSpeed = none ∧
      DriveTracks.drivingStraight
        (DriveTracks.desiredRotationRadiusSigned linearSpeed angularSpeed) = true) ∧
    (¬ |angularSpeed| < 1 / 10 → |linearSpeed| < 1 / 10 →
      DriveTracks.desiredRotationRadiusSigned linearSpeed angularSpeed = some 0 ∧
      DriveTracks.centerOfRotation y
        (DriveTracks.desiredRotationRadiusSigned linearSpeed angularSpeed) p =
          some ⟨p.X + y.X * 0, p.Y + y.Y * 0, p.Z + y.Z * 0⟩ ∧
      DriveTracks.drivingStraight
        (DriveTracks.desiredRotationRadiusSigned linearSpeed angularSpeed) = false) ∧
    (¬ |angularSpeed| < 1 / 10 → ¬ |linearSpeed| < 1 / 10 →
      DriveTracks.desiredRotationRadiusSigned linearSpeed angularSpeed =
        some (linearSpeed / angularSpeed) ∧
      DriveTracks.centerOfRotation y
        (DriveTracks.desiredRotationRadiusSigned linearSpeed angularSpeed) p =
          some ⟨p.X + y.X * (linearSpeed / angularSpeed),
            p.Y + y.Y * (linearSpeed / angularSpeed),
            p.Z + y.Z * (linearSpeed / angularSpeed)⟩ ∧
      DriveTracks.drivingStraight
        (DriveTracks.desiredRotationRadiusSigned linearSpeed angularSpeed) = false) := by
  refine ⟨?_, ?_, ?_⟩
  · intro ha
    have hr : DriveTracks.desiredRotationRadiusSigned linearSpeed angularSpeed = none := by
      simp only [DriveTracks.desiredRotationRadiusSigned, if_pos ha]
    rw [hr]
    exact ⟨rfl, rfl⟩
  · intro ha hl
    have hr : DriveTracks.desiredRotationRadiusSigned linearSpeed angularSpeed = some 0 := by
      simp only [DriveTracks.desiredRotationRadiusSigned, if_neg ha, if_pos hl]
    rw [hr, centerOfRotation_some]
    exact ⟨rfl, rfl, rfl⟩
  · intro ha hl
    have hr : DriveTracks.desiredRotationRadiusSigned linearSpeed angularSpeed =
        some (linearSpeed / angularSpeed) := by
      simp only [DriveTracks.desiredRotationRadiusSigned, if_neg ha, if_neg hl]
    rw [hr, centerOfRotation_some]
    exact ⟨rfl, rfl, rfl⟩

/-- Witness of C3: one input for each of the three cases, with body position
`(3, 4, 5)` and body Y axis `(0, 1, 0)`. -/
theorem C3_rotation_radius_cases_witness :
    (DriveTracks.desiredRotationRadiusSigned 1 0 = none ∧
      DriveTracks.drivingStraight (DriveTracks.desiredRotationRadiusSigned 1 0) = true) ∧
    (DriveTracks.desiredRotationRadiusSigned 0 2 = some 0 ∧
      DriveTracks.centerOfRotation ⟨0, 1, 0⟩ (DriveTracks.desiredRotationRadiusSigned 0 2)
        ⟨3, 4, 5⟩ = some ⟨3 + 0 * 0, 4 + 1 * 0, 5 + 0 * 0⟩ ∧
      DriveTracks.drivingStraight (DriveTracks.desiredRotationRadiusSigned 0 2) = false) ∧
    (DriveTracks.desiredRotationRadiusSigned 1 2 = some (1 / 2) ∧
      DriveTracks.centerOfRotation ⟨0, 1, 0⟩ (DriveTracks.desiredRotationRadiusSigned 1 2)
        ⟨3, 4, 5⟩ = some ⟨3 + 0 * (1 / 2), 4 + 1 * (1 / 2), 5 + 0 * (1 / 2)⟩ ∧
      DriveTracks.drivingStraight (DriveTracks.desiredRotationRadiusSigned 1 2) = false) :=
  ⟨(C3_rotation_radius_cases 1 0 ⟨3, 4, 5⟩ ⟨0, 1, 0⟩).1 (by norm_num),
    (C3_rotation_radius_cases 0 2 ⟨3, 4, 5⟩ ⟨0, 1, 0⟩).2.1 (by norm_num) (by norm_num),
    (C3_rotation_radius_cases 1 2 ⟨3, 4, 5⟩ ⟨0, 1, 0⟩).2.2 (by norm_num) (by norm_num)⟩

theorem ComputeFrictionDirection_straight (sqrt : ℚ → ℚ) (linearSpeed angularSpeed : ℚ)
    (bodyPose : Pose3d) (y cor : Vector3d) (odeContact : dContact) (belt : Vector3d) :
    ComputeFrictionDirection sqrt linearSpeed angularSpeed true bodyPose y cor odeContact belt =
      if (odeContact.geom.normal.Cross y).Dot belt < 0 then (odeContact.geom.normal.Cross y).neg
      else odeContact.geom.normal.Cross y := by
  simp [ComputeFrictionDirection]

/-- C4: with `leftBeltSpeed == rightBeltSpeed`, for every steering efficiency and
every track separation > 0, the angular speed computed by `DriveTracks` is 0, the
rotation radius is the infinity sentinel, and `ComputeFrictionDirection` is called
with `drivingStraight = true`, so that it takes the straight-driving branch for
every contact. -/
theorem C4_equal_belts_drive_straight
    (leftBeltSpeed rightBeltSpeed steeringEfficiency tracksSeparation : ℚ)
    (heq : leftBeltSpeed = rightBeltSpeed) (_hsep : 0 < tracksSeparation) :
    DriveTracks.angularSpeed leftBeltSpeed rightBeltSpeed steeringEfficiency
        tracksSeparation = 0 ∧
      DriveTracks.desiredRotationRadiusSigned
        (DriveTracks.linearSpeed leftBeltSpeed rightBeltSpeed)
        (DriveTracks.angularSpeed leftBeltSpeed rightBeltSpeed steeringEfficiency
          tracksSeparation) = none ∧
      DriveTracks.drivingStraight
        (DriveTracks.desiredRotationRadiusSigned
          (DriveTracks.linearSpeed leftBeltSpeed rightBeltSpeed)
          (DriveTracks.angularSpeed leftBeltSpeed rightBeltSpeed steeringEfficiency
            tracksSeparation)) = true ∧
      ∀ (sqrt : ℚ → ℚ) (bodyPose : Pose3d) (y cor : Vector3d) (odeContact : dContact)
        (belt : Vector3d),
        ComputeFrictionDirection sqrt
            (DriveTracks.linearSpeed leftBeltSpeed rightBeltSpeed)
            (DriveTracks.angularSpeed leftBeltSpeed rightBeltSpeed steeringEfficiency
              tracksSeparation)
            (DriveTracks.drivingStraight
              (DriveTracks.desiredRotationRadiusSigned
                (DriveTracks.linearSpeed leftBeltSpeed rightBeltSpeed)
                (DriveTracks.angularSpeed leftBeltSpeed rightBeltSpeed steeringEfficiency
                  tracksSeparation)))
            bodyPose y cor odeContact belt =
          if (odeContact.geom.normal.Cross y).Dot belt < 0 then
            (odeContact.geom.normal.Cross y).neg
          else odeContact.geom.normal.Cross y := by
  have ha : DriveTracks.angularSpeed leftBeltSpeed rightBeltSpeed steeringEfficiency
      tracksSeparation = 0 := by
    simp [DriveTracks.angularSpeed, heq]
  have hr : DriveTracks.desiredRotationRadiusSigned
      (DriveTracks.linearSpeed leftBeltSpeed rightBeltSpeed)
      (DriveTracks.angularSpeed leftBeltSpeed rightBeltSpeed steeringEfficiency
        tracksSeparation) = none := by
    rw [ha]
    have h0 : |(0 : ℚ)| < 1 / 10 := by norm_num
    simp only [DriveTracks.desiredRotationRadiusSigned, if_pos h0]
  refine ⟨ha, hr, ?_, ?_⟩
  · rw [hr]; rfl
  · intro sqrt bodyPose y cor odeContact belt
    rw [hr]
    exact ComputeFrictionDirection_straight sqrt _ _ bodyPose y cor odeContact belt

/-- Witness of C4: both belts at speed -1 (after `SetTrackVelocity(1, 1)`), steering
efficiency 1/2 and track separation 2/5. -/
theorem C4_equal_belts_drive_straight_witness :
    (SetTrackVelocity 1 1).LEFT = (SetTrackVelocity 1 1).RIGHT ∧ (0 : ℚ) < 2 / 5 ∧
      DriveTracks.angularSpeed (SetTrackVelocity 1 1).LEFT (SetTrackVelocity 1 1).RIGHT
        (1 / 2) (2 / 5) = 0 ∧
      DriveTracks.desiredRotationRadiusSigned
        (DriveTracks.linearSpeed (SetTrackVelocity 1 1).LEFT (SetTrackVelocity 1 1).RIGHT)
        (DriveTracks.angularSpeed (SetTrackVelocity 1 1).LEFT (SetTrackVelocity 1 1).RIGHT
          (1 / 2) (2 / 5)) = none :=
  ⟨rfl, by norm_num,
    (C4_equal_belts_drive_straight (SetTrackVelocity 1 1).LEFT (SetTrackVelocity 1 1).RIGHT
      (1 / 2) (2 / 5) rfl (by norm_num)).1,
    (C4_equal_belts_drive_straight (SetTrackVelocity 1 1).LEFT (SetTrackVelocity 1 1).RIGHT
      (1 / 2) (2 / 5) rfl (by norm_num)).2.1⟩

/-- C5 as stated fails: after `SetTrackVelocity(1/100, -1/100)`, with steering
efficiency 1 and track separation 1, the belt speeds are opposite, yet the angular
speed 1/50 is below the threshold, the radius is the infinity sentinel and the
centre of rotation is not the body position. -/
theorem C5_counterexample :
    ¬ ∀ (leftBeltSpeed rightBeltSpeed steeringEfficiency tracksSeparation : ℚ)
        (p y : Vector3d),
        leftBeltSpeed = -rightBeltSpeed → 0 < steeringEfficiency → 0 < tracksSeparation →
        DriveTracks.linearSpeed leftBeltSpeed rightBeltSpeed = 0 ∧
        DriveTracks.centerOfRotation y
          (DriveTracks.desiredRotationRadiusSigned
            (DriveTracks.linearSpeed leftBeltSpeed rightBeltSpeed)
            (DriveTracks.angularSpeed leftBeltSpeed rightBeltSpeed steeringEfficiency
              tracksSeparation)) p = some p := by
  intro h
  have h1 := (h (SetTrackVelocity (1 / 100) (-1 / 100)).LEFT
    (SetTrackVelocity (1 / 100) (-1 / 100)).RIGHT 1 1 ⟨0, 0, 0⟩ ⟨0, 1, 0⟩
    (by norm_num [SetTrackVelocity]) (by norm_num) (by norm_num)).2
  have h2 : DriveTracks.desiredRotationRadiusSigned
      (DriveTracks.linearSpeed (SetTrackVelocity (1 / 100) (-1 / 100)).LEFT
        (SetTrackVelocity (1 / 100) (-1 / 100)).RIGHT)
      (DriveTracks.angularSpeed (SetTrackVelocity (1 / 100) (-1 / 100)).LEFT
        (SetTrackVelocity (1 / 100) (-1 / 100)).RIGHT 1 1) = none := by
    have ha : |DriveTracks.angularSpeed (SetTrackVelocity (1 / 100) (-1 / 100)).LEFT
        (SetTrackVelocity (1 / 100) (-1 / 100)).RIGHT 1 1| < 1 / 10 := by
      norm_num [DriveTracks.angularSpeed, SetTrackVelocity, abs_lt]
    simp only [DriveTracks.desiredRotationRadiusSigned, if_pos ha]
  rw [h2] at h1
  cases h1

/-- C5, amended: with `leftBeltSpeed == -rightBeltSpeed` and positive steering
efficiency and track separation, the linear speed computed by `DriveTracks` is 0,
and the centre of rotation is the body position exactly when the angular speed is
not below the straight-driving threshold (`|angularSpeed| < 0.1` fails). -/
theorem C5_pivot_center_is_body_position
    (leftBeltSpeed rightBeltSpeed steeringEfficiency tracksSeparation : ℚ)
    (p y : Vector3d) (hopp : leftBeltSpeed = -rightBeltSpeed)
    (_heff : 0 < steeringEfficiency) (_hsep : 0 < tracksSeparation) :
    DriveTracks.linearSpeed leftBeltSpeed rightBeltSpeed = 0 ∧
      (DriveTracks.centerOfRotation y
          (DriveTracks.desiredRotationRadiusSigned
            (DriveTracks.linearSpeed leftBeltSpeed rightBeltSpeed)
            (DriveTracks.angularSpeed leftBeltSpeed rightBeltSpeed steeringEfficiency
              tracksSeparation)) p = some p ↔
        ¬ |DriveTracks.angularSpeed leftBeltSpeed rightBeltSpeed steeringEfficiency
            tracksSeparation| < 1 / 10) := by
  have hl : DriveTracks.linearSpeed leftBeltSpeed rightBeltSpeed = 0 := by
    simp [DriveTracks.linearSpeed, hopp]
  refine ⟨hl, ?_⟩
  rw [hl]
  by_cases ha : |DriveTracks.angularSpeed leftBeltSpeed rightBeltSpeed steeringEfficiency
      tracksSeparation| < 1 / 10
  · simp only [DriveTracks.desiredRotationRadiusSigned, if_pos ha, DriveTracks.centerOfRotation]
    exact ⟨fun h => (by cases h), fun h => absurd ha h⟩
  · have h0 : |(0 : ℚ)| < 1 / 10 := by norm_num
    simp only [DriveTracks.desiredRotationRadiusSigned, if_neg ha, if_pos h0,
      centerOfRotation_some]
    refine ⟨fun _ => ha, fun _ => ?_⟩
    cases p
    simp

/-- Witness of C5 (amended): after `SetTrackVelocity(1, -1)` with steering efficiency
1/2 and track separation 2/5 the angular speed is 5/2 and the centre of rotation is
the body position `(3, 4, 5)`. -/
theorem C5_pivot_center_is_body_position_witness :
    DriveTracks.linearSpeed (SetTrackVelocity 1 (-1)).LEFT (SetTrackVelocity 1 (-1)).RIGHT
        = 0 ∧
      DriveTracks.centerOfRotation ⟨0, 1, 0⟩
        (DriveTracks.desiredRotationRadiusSigned
          (DriveTracks.linearSpeed (SetTrackVelocity 1 (-1)).LEFT
            (SetTrackVelocity 1 (-1)).RIGHT)
          (DriveTracks.angularSpeed (SetTrackVelocity 1 (-1)).LEFT
            (SetTrackVelocity 1 (-1)).RIGHT (1 / 2) (2 / 5))) ⟨3, 4, 5⟩ = some ⟨3, 4, 5⟩ :=
  ⟨(C5_pivot_center_is_body_position (SetTrackVelocity 1 (-1)).LEFT
      (SetTrackVelocity 1 (-1)).RIGHT (1 / 2) (2 / 5) ⟨3, 4, 5⟩ ⟨0, 1, 0⟩
      (by norm_num [SetTrackVelocity]) (by norm_num) (by norm_num)).1,
    (C5_pivot_center_is_body_position (SetTrackVelocity 1 (-1)).LEFT
      (SetTrackVelocity 1 (-1)).RIGHT (1 / 2) (2 / 5) ⟨3, 4, 5⟩ ⟨0, 1, 0⟩
      (by norm_num [SetTrackVelocity]) (by norm_num) (by norm_num)).2.2
      (by norm_num [DriveTracks.angularSpeed, SetTrackVelocity, abs_lt])⟩

/-! ## The friction solver -/

theorem Vector3d.neg_Dot (a b : Vector3d) : (a.neg).Dot b = -(a.Dot b) := by
  simp only [Vector3d.neg, Vector3d.Dot]
  ring

theorem Vector3d.Cross_Dot_left (a b : Vector3d) : (a.Cross b).Dot a = 0 := by
  simp only [Vector3d.Cross, Vector3d.Dot]
  ring

theorem Vector3d.Cross_Dot_right (a b : Vector3d) : (a.Cross b).Dot b = 0 := by
  simp only [Vector3d.Cross, Vector3d.Dot]
  ring

/-- The cross product with a normalized vector is perpendicular to the vector
itself, whatever value `sqrt` returns for its squared length. -/
theorem Vector3d.Cross_Normalize_Dot (sqrt : ℚ → ℚ) (a d : Vector3d) :
    (a.Cross (d.Normalize sqrt)).Dot d = 0 := by
  simp only [Vector3d.Normalize]
  split_ifs
  · simp only [Vector3d.Cross, Vector3d.Dot]
    ring
  · exact Vector3d.Cross_Dot_right a d

/-- C6: with `drivingStraight = true`, `ComputeFrictionDirection` returns
`contactNormal x bodyYAxis`, negated exactly when the dot product of that vector
with `beltDirection` is negative; the dot product of the result with
`beltDirection` is >= 0; and the result is the same for every linear speed, angular
speed, body pose, centre of rotation and contact position (and every other field
of the contact record but the normal). -/
theorem C6_straight_friction_direction (sqrt : ℚ → ℚ) (linearSpeed angularSpeed : ℚ)
    (bodyPose : Pose3d) (y cor : Vector3d) (odeContact : dContact) (belt : Vector3d) :
    ComputeFrictionDirection sqrt linearSpeed angularSpeed true bodyPose y cor odeContact
        belt =
      (if (odeContact.geom.normal.Cross y).Dot belt < 0 then
        (odeContact.geom.normal.Cross y).neg
      else odeContact.geom.normal.Cross y) ∧
    0 ≤ (ComputeFrictionDirection sqrt linearSpeed angularSpeed true bodyPose y cor
      odeContact belt).Dot belt ∧
    ∀ (sqrt2 : ℚ → ℚ) (linearSpeed2 angularSpeed2 : ℚ) (bodyPose2 : Pose3d)
      (cor2 pos2 fdir2 : Vector3d) (surface2 : dSurfaceParameters) (g1 g2 : dGeomID),
      ComputeFrictionDirection sqrt2 linearSpeed2 angularSpeed2 true bodyPose2 y cor2
          { surface := surface2,
            geom := { pos := pos2, normal := odeContact.geom.normal, g1 := g1, g2 := g2 },
            fdir1 := fdir2 } belt =
        ComputeFrictionDirection sqrt linearSpeed angularSpeed true bodyPose y cor
          odeContact belt := by
  refine ⟨ComputeFrictionDirection_straight sqrt _ _ bodyPose y cor odeContact belt, ?_, ?_⟩
  · rw [ComputeFrictionDirection_straight]
    split_ifs with h
    · rw [Vector3d.neg_Dot]
      linarith
    · exact not_lt.mp h
  · intro sqrt2 linearSpeed2 angularSpeed2 bodyPose2 cor2 pos2 fdir2 surface2 g1 g2
    rw [ComputeFrictionDirection_straight, ComputeFrictionDirection_straight]

/-- The value of `ComputeFrictionDirection` with `drivingStraight = false`, as a
signed multiple of `contactNormal x corToContact`. -/
theorem ComputeFrictionDirection_turning (sqrt : ℚ → ℚ) (linearSpeed angularSpeed : ℚ)
    (bodyPose : Pose3d) (y cor : Vector3d) (odeContact : dContact) (belt : Vector3d) :
    ComputeFrictionDirection sqrt linearSpeed angularSpeed false bodyPose y cor odeContact
        belt =
      (odeContact.geom.normal.Cross ((odeContact.geom.pos.sub cor).Normalize sqrt)).scale
        ((if signum angularSpeed *
              signum (y.Dot (odeContact.geom.normal.Cross
                ((odeContact.geom.pos.sub cor).Normalize sqrt))) ≠
            (if |linearSpeed| > 1 / 10 then signum linearSpeed else 1) *
              signum (bodyPose.Rot.RotateVectorReverse
                (odeContact.geom.pos.sub bodyPose.Pos)).X
          then -1 else 1) *
          (if linearSpeed < 0 then -1 else 1)) := by
  have hx : ∀ v : Vector3d, v.Dot ⟨1, 0, 0⟩ = v.X := by
    intro v
    simp [Vector3d.Dot]
  simp only [ComputeFrictionDirection, hx, Bool.not_false, if_true]
  split_ifs <;> simp [Vector3d.scale, Vector3d.neg]

theorem Vector3d.scale_Dot (a b : Vector3d) (k : ℚ) : (a.scale k).Dot b = k * a.Dot b := by
  simp only [Vector3d.scale, Vector3d.Dot]
  ring

/-- C7: with `drivingStraight = false`, the vector returned by
`ComputeFrictionDirection` is `contactNormal x normalize(contactPosition -
centerOfRotation)` or its negation, and its dot products with the contact normal
and with the radius vector `contactPosition - centerOfRotation` are both 0. -/
theorem C7_turning_friction_tangent (sqrt : ℚ → ℚ) (linearSpeed angularSpeed : ℚ)
    (bodyPose : Pose3d) (y cor : Vector3d) (odeContact : dContact) (belt : Vector3d) :
    (ComputeFrictionDirection sqrt linearSpeed angularSpeed false bodyPose y cor odeContact
        belt =
        odeContact.geom.normal.Cross ((odeContact.geom.pos.sub cor).Normalize sqrt) ∨
      ComputeFrictionDirection sqrt linearSpeed angularSpeed false bodyPose y cor odeContact
        belt =
        (odeContact.geom.normal.Cross ((odeContact.geom.pos.sub cor).Normalize sqrt)).neg) ∧
    (ComputeFrictionDirection sqrt linearSpeed angularSpeed false bodyPose y cor odeContact
      belt).Dot odeContact.geom.normal = 0 ∧
    (ComputeFrictionDirection sqrt linearSpeed angularSpeed false bodyPose y cor odeContact
      belt).Dot (odeContact.geom.pos.sub cor) = 0 := by
  rw [ComputeFrictionDirection_turning]
  refine ⟨?_, ?_, ?_⟩
  · split_ifs <;> simp [Vector3d.scale, Vector3d.neg]
  · rw [Vector3d.scale_Dot, Vector3d.Cross_Dot_left, mul_zero]
  · rw [Vector3d.scale_Dot, Vector3d.Cross_Normalize_Dot, mul_zero]

/-- C8: with `drivingStraight = false`, `ComputeFrictionDirection` returns
`s * (contactNormal x corToContact)`, where `s` is the product of two signs: -1
when `signum(angularSpeed) * signum(bodyYAxis . (contactNormal x corToContact))`
differs from `L * signum(x)` and +1 otherwise, and -1 when `linearSpeed < 0` and +1
otherwise; `x` is the X component of the contact position taken to the body frame
by `RotateVectorReverse`, and `L` is `signum(linearSpeed)` when
`|linearSpeed| > 0.1` and +1 otherwise. -/
theorem C8_turning_sign_rule (sqrt : ℚ → ℚ) (linearSpeed angularSpeed : ℚ)
    (bodyPose : Pose3d) (y cor : Vector3d) (odeContact : dContact) (belt : Vector3d) :
    ComputeFrictionDirection sqrt linearSpeed angularSpeed false bodyPose y cor odeContact
        belt =
      (odeContact.geom.normal.Cross ((odeContact.geom.pos.sub cor).Normalize sqrt)).scale
        ((if signum angularSpeed *
              signum (y.Dot (odeContact.geom.normal.Cross
                ((odeContact.geom.pos.sub cor).Normalize sqrt))) ≠
            (if |linearSpeed| > 1 / 10 then signum linearSpeed else 1) *
              signum (bodyPose.Rot.RotateVectorReverse
                (odeContact.geom.pos.sub bodyPose.Pos)).X
          then -1 else 1) *
          (if linearSpeed < 0 then -1 else 1)) ∧
    signum 0 = 0 :=
  ⟨ComputeFrictionDirection_turning sqrt linearSpeed angularSpeed bodyPose y cor odeContact
    belt, by simp [signum]⟩

/-- C9, at its failing inputs: a unit contact normal `(0, 3/5, 4/5)`, the unit body Y
axis `(0, 1, 0)` and a contact position away from the centre of rotation give, in
straight driving, the friction direction `(-4/5, 0, 0)` of squared length 16/25;
in a turn of radius 1 about the point `(0, 1, 2)` (body at `(0, 0, 2)`, linear and
angular speed 1), the contact at `(0, 1, 0)` with normal `(0, 0, 1)` gives the zero
vector. -/
theorem C9_friction_direction_not_unit (sqrt : ℚ → ℚ) :
    ((⟨0, 3 / 5, 4 / 5⟩ : Vector3d).SquaredLength = 1 ∧
      (⟨0, 1, 0⟩ : Vector3d).SquaredLength = 1 ∧
      (⟨1, 0, 0⟩ : Vector3d) ≠ ⟨0, 0, 0⟩ ∧
      ComputeFrictionDirection sqrt (-1) 0 true samplePose ⟨0, 1, 0⟩ ⟨0, 0, 0⟩
        (contactWith ⟨0, 3 / 5, 4 / 5⟩ ⟨1, 0, 0⟩) ⟨-4 / 5, 0, 0⟩ = ⟨-4 / 5, 0, 0⟩ ∧
      (ComputeFrictionDirection sqrt (-1) 0 true samplePose ⟨0, 1, 0⟩ ⟨0, 0, 0⟩
        (contactWith ⟨0, 3 / 5, 4 / 5⟩ ⟨1, 0, 0⟩) ⟨-4 / 5, 0, 0⟩).SquaredLength = 16 / 25) ∧
    ((⟨0, 0, 1⟩ : Vector3d).SquaredLength = 1 ∧
      (⟨0, 1, 0⟩ : Vector3d) ≠ ⟨0, 1, 2⟩ ∧
      ComputeFrictionDirection sqrt 1 1 false { samplePose with Pos := ⟨0, 0, 2⟩ }
        ⟨0, 1, 0⟩ ⟨0, 1, 2⟩ (contactWith ⟨0, 0, 1⟩ ⟨0, 1, 0⟩) ⟨1, 0, 0⟩ = ⟨0, 0, 0⟩ ∧
      (ComputeFrictionDirection sqrt 1 1 false { samplePose with Pos := ⟨0, 0, 2⟩ }
        ⟨0, 1, 0⟩ ⟨0, 1, 2⟩ (contactWith ⟨0, 0, 1⟩ ⟨0, 1, 0⟩) ⟨1, 0, 0⟩).SquaredLength = 0) := by
  have hs : ComputeFrictionDirection sqrt (-1) 0 true samplePose ⟨0, 1, 0⟩ ⟨0, 0, 0⟩
      (contactWith ⟨0, 3 / 5, 4 / 5⟩ ⟨1, 0, 0⟩) ⟨-4 / 5, 0, 0⟩ = ⟨-4 / 5, 0, 0⟩ := by
    rw [ComputeFrictionDirection_straight]
    norm_num [contactWith, Vector3d.Cross, Vector3d.Dot, Vector3d.neg]
  have ht : ComputeFrictionDirection sqrt 1 1 false { samplePose with Pos := ⟨0, 0, 2⟩ }
      ⟨0, 1, 0⟩ ⟨0, 1, 2⟩ (contactWith ⟨0, 0, 1⟩ ⟨0, 1, 0⟩) ⟨1, 0, 0⟩ = ⟨0, 0, 0⟩ := by
    rw [ComputeFrictionDirection_turning]
    have hc : (contactWith ⟨0, 0, 1⟩ ⟨0, 1, 0⟩).geom.normal.Cross
        (((contactWith ⟨0, 0, 1⟩ ⟨0, 1, 0⟩).geom.pos.sub ⟨0, 1, 2⟩).Normalize sqrt) =
        ⟨0, 0, 0⟩ := by
      simp only [Vector3d.Normalize]
      split_ifs <;> norm_num [contactWith, Vector3d.Cross, Vector3d.sub]
    rw [hc]
    simp [Vector3d.scale]
  refine ⟨⟨?_, ?_, ?_, hs, ?_⟩, ?_, ?_, ht, ?_⟩
  · norm_num [Vector3d.SquaredLength]
  · norm_num [Vector3d.SquaredLength]
  · decide
  · rw [hs]; norm_num [Vector3d.SquaredLength]
  · norm_num [Vector3d.SquaredLength]
  · decide
  · rw [ht]; norm_num [Vector3d.SquaredLength]

/-- C10: `ComputeSurfaceMotion(0, beltDirection, frictionDirection)` is 0 for every
belt direction and friction direction, the value of the function being
`-(beltDirection . frictionDirection) * |beltSpeed|`. -/
theorem C10_stationary_belt_no_surface_motion (beltDirection frictionDirection : Vector3d) :
    ComputeSurfaceMotion 0 beltDirection frictionDirection = 0 ∧
      ∀ beltSpeed : ℚ, ComputeSurfaceMotion beltSpeed beltDirection frictionDirection =
        -(beltDirection.X * frictionDirection.X + beltDirection.Y * frictionDirection.Y +
            beltDirection.Z * frictionDirection.Z) * |beltSpeed| := by
  constructor
  · simp [ComputeSurfaceMotion]
  · intro beltSpeed
    rfl

/-! ## The end state of the iterator and the reverse-driving sign -/

theorem operatorInc_of_end (addr : StackAddr) (joints : dBodyJoints) (it : ContactIterator)
    (hinit : it.initialized = true) (hnull : it.currentContact = none) :
    ContactIterator.operatorInc addr joints it = it := by
  simp [ContactIterator.operatorInc, hinit, hnull]

/-- C16: the end state of `ContactIterator` (initialized, no current contact) differs
from every freshly constructed `begin(body, gA, gB)` iterator, which is not
initialized, and it is absorbing: `operator++` returns an iterator in the end state
unchanged, however often it is applied, and the loop of `DriveTracks` started there
yields nothing, on every machine. -/
theorem C16_end_state_absorbing (mc : Machine) (addr : StackAddr) (joints : dBodyJoints)
    (body : dBodyID) (gA gB : dGeomID)
    (it : ContactIterator) (hinit : it.initialized = true)
    (hnull : it.currentContact = none) :
    (ContactIterator.end.initialized = true ∧ ContactIterator.end.currentContact = none) ∧
    (ContactIterator.begin body gA gB).initialized = false ∧
    ContactIterator.end ≠ ContactIterator.begin body gA gB ∧
    it ≠ ContactIterator.begin body gA gB ∧
    ContactIterator.operatorInc addr joints it = it ∧
    (∀ n : Nat, (ContactIterator.operatorInc addr joints)^[n] it = it) ∧
    ∀ fuel reads : Nat, forEachContact mc joints (fuel + 1) reads it = some [] := by
  refine ⟨⟨rfl, rfl⟩, rfl, ?_, ?_, operatorInc_of_end addr joints it hinit hnull, ?_, ?_⟩
  · intro h
    have := congrArg ContactIterator.initialized h
    simp [ContactIterator.end, ContactIterator.mk1, ContactIterator.begin,
      ContactIterator.mk3] at this
  · intro h
    rw [h] at hinit
    simp [ContactIterator.begin, ContactIterator.mk3] at hinit
  · intro n
    exact Function.iterate_fixed (operatorInc_of_end addr joints it hinit hnull) n
  · intro fuel reads
    simp [forEachContact, ContactIterator.operatorNe, ContactIterator.operatorEq,
      ContactIterator.end, ContactIterator.mk1, hinit, hnull]

/-- Witness of C16: an exhausted iterator over body 1 of the sample world. -/
theorem C16_end_state_absorbing_witness :
    ContactIterator.operatorInc 102 sampleJoints
        { currentContact := none, jointIndex := 3, body := 1, geom1 := 5, geom2 := 6,
          initialized := true } =
      { currentContact := none, jointIndex := 3, body := 1, geom1 := 5, geom2 := 6,
        initialized := true } :=
  (C16_end_state_absorbing staleMachine 102 sampleJoints 1 5 6
    { currentContact := none, jointIndex := 3, body := 1, geom1 := 5, geom2 := 6,
      initialized := true } rfl rfl).2.2.2.2.1

theorem signum_of_pos (v : ℚ) (h : 0 < v) : signum v = 1 := by
  simp [signum, h, not_lt.mpr h.le]

theorem signum_of_neg (v : ℚ) (h : v < 0) : signum v = -1 := by
  simp [signum, h, not_lt.mpr h.le]

theorem signum_of_ne (v : ℚ) (h : v ≠ 0) : signum v = 1 ∨ signum v = -1 := by
  rcases lt_or_gt_of_ne h with h | h
  · exact Or.inr (signum_of_neg _ h)
  · exact Or.inl (signum_of_pos _ h)

/-- C19: in the turning case the reverse-driving negation cancels the sign of the
linear speed used in the comparison: for `|v| > 0.1`, a non-zero angular speed, a
contact whose local-frame x component is non-zero and a non-zero
`bodyYAxis . (contactNormal x corToContact)`, `ComputeFrictionDirection` returns
the same vector for the linear speeds `v` and `-v`, all other arguments equal. -/
theorem C19_reverse_cancels_linear_sign (sqrt : ℚ → ℚ) (v angularSpeed : ℚ)
    (bodyPose : Pose3d) (y cor : Vector3d) (odeContact : dContact) (belt : Vector3d)
    (hv : |v| > 1 / 10) (ha : angularSpeed ≠ 0)
    (hx : (bodyPose.Rot.RotateVectorReverse (odeContact.geom.pos.sub bodyPose.Pos)).X ≠ 0)
    (hd : y.Dot (odeContact.geom.normal.Cross
      ((odeContact.geom.pos.sub cor).Normalize sqrt)) ≠ 0) :
    ComputeFrictionDirection sqrt v angularSpeed false bodyPose y cor odeContact belt =
      ComputeFrictionDirection sqrt (-v) angularSpeed false bodyPose y cor odeContact belt := by
  rw [ComputeFrictionDirection_turning, ComputeFrictionDirection_turning]
  congr 1
  have hv2 : |(-v)| > 1 / 10 := by rwa [abs_neg]
  rw [if_pos hv, if_pos hv2]
  have hsa := signum_of_ne _ ha
  have hsx := signum_of_ne _ hx
  have hsd := signum_of_ne _ hd
  have hv0 : v ≠ 0 := by
    intro h0
    rw [h0] at hv
    norm_num at hv
  rcases lt_or_gt_of_ne hv0 with hneg | hpos
  · have h1 : ¬ (-v < 0) := by linarith
    have h2 : 0 < -v := by linarith
    rw [signum_of_neg v hneg, signum_of_pos (-v) h2, if_pos hneg, if_neg h1]
    rcases hsa with hsa | hsa <;> rcases hsx with hsx | hsx <;> rcases hsd with hsd | hsd <;>
      simp [hsa, hsx, hsd]
  · have h1 : ¬ (v < 0) := by linarith
    have h2 : -v < 0 := by linarith
    rw [signum_of_pos v hpos, signum_of_neg (-v) h2, if_neg h1, if_pos h2]
    rcases hsa with hsa | hsa <;> rcases hsx with hsx | hsx <;> rcases hsd with hsd | hsd <;>
      simp [hsa, hsx, hsd]

/-- Witness of C19: the contact at `(1, 1, 0)` with normal `(0, 0, 1)`, a turn about
`(0, 1, 0)` with angular speed 1, linear speeds 1 and -1; the radius vector has
length 1, where the identity agrees with the square root. -/
theorem C19_reverse_cancels_linear_sign_witness :
    ComputeFrictionDirection (fun x => x) 1 1 false samplePose ⟨0, 1, 0⟩ ⟨0, 1, 0⟩
        (contactWith ⟨0, 0, 1⟩ ⟨1, 1, 0⟩) ⟨1, 0, 0⟩ =
      ComputeFrictionDirection (fun x => x) (-1) 1 false samplePose ⟨0, 1, 0⟩ ⟨0, 1, 0⟩
        (contactWith ⟨0, 0, 1⟩ ⟨1, 1, 0⟩) ⟨1, 0, 0⟩ :=
  C19_reverse_cancels_linear_sign (fun x => x) 1 1 samplePose ⟨0, 1, 0⟩ ⟨0, 1, 0⟩
    (contactWith ⟨0, 0, 1⟩ ⟨1, 1, 0⟩) ⟨1, 0, 0⟩ (by norm_num) (by norm_num)
    (by norm_num [samplePose, contactWith, Quaterniond.RotateVectorReverse, Quaterniond.mul,
      Quaterniond.Inverse, equal, Vector3d.sub])
    (by norm_num [contactWith, Vector3d.Normalize, Vector3d.Length, equal, Vector3d.sub,
      Vector3d.Cross, Vector3d.Dot])

/-! ## Bounds on the surface motion -/

/-- The identity of Lagrange: `(a . b)^2 + |a x b|^2 = |a|^2 |b|^2`. -/
theorem Vector3d.Dot_sq_add_Cross (a b : Vector3d) :
    a.Dot b * a.Dot b + (a.Cross b).SquaredLength = a.SquaredLength * b.SquaredLength := by
  simp only [Vector3d.Dot, Vector3d.Cross, Vector3d.SquaredLength]
  ring

theorem Vector3d.SquaredLength_nonneg (a : Vector3d) : 0 ≤ a.SquaredLength := by
  simp only [Vector3d.SquaredLength]
  nlinarith [mul_self_nonneg a.X, mul_self_nonneg a.Y, mul_self_nonneg a.Z]

theorem Vector3d.abs_Dot_le_one (a b : Vector3d) (ha : a.SquaredLength = 1)
    (hb : b.SquaredLength = 1) : |a.Dot b| ≤ 1 := by
  have h := Vector3d.Dot_sq_add_Cross a b
  rw [ha, hb] at h
  have hc := Vector3d.SquaredLength_nonneg (a.Cross b)
  rw [abs_le_one_iff_mul_self_le_one]
  linarith

theorem Vector3d.eq_of_Dot_eq_one (a b : Vector3d) (ha : a.SquaredLength = 1)
    (hb : b.SquaredLength = 1) (h : a.Dot b = 1) : b = a := by
  have hs : (b.X - a.X) * (b.X - a.X) + (b.Y - a.Y) * (b.Y - a.Y) +
      (b.Z - a.Z) * (b.Z - a.Z) = 0 := by
    simp only [Vector3d.SquaredLength, Vector3d.Dot] at ha hb h
    nlinarith
  have hx : b.X - a.X = 0 := by
    nlinarith [mul_self_nonneg (b.X - a.X), mul_self_nonneg (b.Y - a.Y),
      mul_self_nonneg (b.Z - a.Z)]
  have hy : b.Y - a.Y = 0 := by
    nlinarith [mul_self_nonneg (b.X - a.X), mul_self_nonneg (b.Y - a.Y),
      mul_self_nonneg (b.Z - a.Z)]
  have hz : b.Z - a.Z = 0 := by
    nlinarith [mul_self_nonneg (b.X - a.X), mul_self_nonneg (b.Y - a.Y),
      mul_self_nonneg (b.Z - a.Z)]
  cases a
  cases b
  simp only [Vector3d.mk.injEq] at *
  exact ⟨by linarith, by linarith, by linarith⟩

theorem Vector3d.neg_SquaredLength (a : Vector3d) : a.neg.SquaredLength = a.SquaredLength := by
  simp only [Vector3d.neg, Vector3d.SquaredLength]
  ring

/-- For unit vectors, `|a . b| = 1` exactly when `b` is `a` or `-a`. -/
theorem Vector3d.abs_Dot_eq_one_iff (a b : Vector3d) (ha : a.SquaredLength = 1)
    (hb : b.SquaredLength = 1) : |a.Dot b| = 1 ↔ b = a ∨ b = a.neg := by
  constructor
  · intro h
    rcases abs_eq (by norm_num : (0 : ℚ) ≤ 1) |>.mp h with h1 | h1
    · exact Or.inl (Vector3d.eq_of_Dot_eq_one a b ha hb h1)
    · right
      apply Vector3d.eq_of_Dot_eq_one a.neg b (by rw [Vector3d.neg_SquaredLength, ha]) hb
      rw [Vector3d.neg_Dot, h1]
      norm_num
  · rintro (h | h)
    · subst h
      have : b.Dot b = 1 := by
        simpa [Vector3d.Dot, Vector3d.SquaredLength] using hb
      rw [this]
      norm_num
    · subst h
      have : a.Dot a.neg = -1 := by
        simp only [Vector3d.SquaredLength] at ha
        simp only [Vector3d.Dot, Vector3d.neg]
        linarith
      rw [this]
      norm_num

/-- C20 as stated fails: with belt speed 0 the surface motion is 0, so its
magnitude equals `|s|` also for the unit vectors `(1, 0, 0)` and `(0, 1, 0)`, which
are not equal up to sign. -/
theorem C20_counterexample :
    ¬ ∀ (s : ℚ) (b f : Vector3d), b.SquaredLength = 1 → f.SquaredLength = 1 →
        (|ComputeSurfaceMotion s b f| = |s| ↔ f = b ∨ f = b.neg) := by
  intro h
  have h1 := (h 0 ⟨1, 0, 0⟩ ⟨0, 1, 0⟩ (by norm_num [Vector3d.SquaredLength])
    (by norm_num [Vector3d.SquaredLength])).mp (by norm_num [ComputeSurfaceMotion])
  revert h1
  decide

/-- C20, amended: for every belt speed `s` and all unit vectors `beltDirection` and
`frictionDirection`, `|ComputeSurfaceMotion(s, b, f)| <= |s|`, with equality exactly
when `s = 0` or `f` is `b` or `-b`; and the value depends on `s` only through `|s|`:
`ComputeSurfaceMotion(-s, b, f) = ComputeSurfaceMotion(s, b, f)`. -/
theorem C20_surface_motion_bound (s : ℚ) (b f : Vector3d) (hb : b.SquaredLength = 1)
    (hf : f.SquaredLength = 1) :
    |ComputeSurfaceMotion s b f| ≤ |s| ∧
      (|ComputeSurfaceMotion s b f| = |s| ↔ s = 0 ∨ f = b ∨ f = b.neg) ∧
      ComputeSurfaceMotion (-s) b f = ComputeSurfaceMotion s b f := by
  have habs : |ComputeSurfaceMotion s b f| = |b.Dot f| * |s| := by
    simp [ComputeSurfaceMotion, abs_mul]
  have hle := Vector3d.abs_Dot_le_one b f hb hf
  refine ⟨?_, ?_, ?_⟩
  · rw [habs]
    calc |b.Dot f| * |s| ≤ 1 * |s| := mul_le_mul_of_nonneg_right hle (abs_nonneg s)
      _ = |s| := one_mul _
  · rw [habs, ← Vector3d.abs_Dot_eq_one_iff b f hb hf]
    constructor
    · intro h
      by_cases hs : s = 0
      · exact Or.inl hs
      · right
        have hpos : 0 < |s| := abs_pos.mpr hs
        have : |b.Dot f| * |s| = 1 * |s| := by rw [h, one_mul]
        exact mul_right_cancel₀ (ne_of_gt hpos) this
    · rintro (h | h)
      · simp [h]
      · rw [h, one_mul]
  · simp [ComputeSurfaceMotion]

/-- Witness of C20 (amended): belt speed -2, belt direction `(1, 0, 0)` and friction
direction `(3/5, 4/5, 0)`. -/
theorem C20_surface_motion_bound_witness :
    |ComputeSurfaceMotion (-2) ⟨1, 0, 0⟩ ⟨3 / 5, 4 / 5, 0⟩| ≤ |(-2 : ℚ)| ∧
      ComputeSurfaceMotion (- -2) ⟨1, 0, 0⟩ ⟨3 / 5, 4 / 5, 0⟩ =
        ComputeSurfaceMotion (-2) ⟨1, 0, 0⟩ ⟨3 / 5, 4 / 5, 0⟩ :=
  ⟨(C20_surface_motion_bound (-2) ⟨1, 0, 0⟩ ⟨3 / 5, 4 / 5, 0⟩
      (by norm_num [Vector3d.SquaredLength]) (by norm_num [Vector3d.SquaredLength])).1,
    (C20_surface_motion_bound (-2) ⟨1, 0, 0⟩ ⟨3 / 5, 4 / 5, 0⟩
      (by norm_num [Vector3d.SquaredLength]) (by norm_num [Vector3d.SquaredLength])).2.2⟩

/-! ## The pass over the contacts -/

theorem matchingContact_isSome (gA gB : dGeomID) (x : dxJoint) :
    (matchingContact gA gB x).isSome = keyMatches gA gB (jointKey x) := by
  cases x with
  | contact c =>
    simp only [matchingContact, jointKey, keyMatches]
    split_ifs with h <;> simp [h]
  | other t => rfl

theorem positions_enumFrom (gA gB : dGeomID) (l : List dxJoint) (n : Nat) :
    ((l.enumFrom n).filterMap
        (fun p => (matchingContact gA gB p.2).map (fun c => (p.1, c)))).map Prod.fst =
      ((l.map jointKey).enumFrom n).filterMap
        (fun p => if keyMatches gA gB p.2 then some p.1 else none) := by
  induction l generalizing n with
  | nil => rfl
  | cons a l ih =>
    simp only [List.enumFrom_cons, List.map_cons, List.filterMap_cons]
    have h := matchingContact_isSome gA gB a
    cases hm : matchingContact gA gB a with
    | none =>
      rw [hm] at h
      simp only [Option.isNone_none, Option.isSome_none] at h
      simp [← h, ih]
    | some c =>
      rw [hm] at h
      simp only [Option.isSome_some] at h
      simp [← h, ih]

theorem positions_congr (gA gB : dGeomID) (l l2 : List dxJoint) (j : Nat)
    (h : l2.map jointKey = l.map jointKey) :
    (matchingFrom l2 gA gB j).map Prod.fst = (matchingFrom l gA gB j).map Prod.fst := by
  unfold matchingFrom
  rw [positions_enumFrom, positions_enumFrom, List.map_drop, List.map_drop, h]

theorem sameKeys_refl (w : dWorld) : sameKeys w w := ⟨rfl, fun _ => rfl⟩

theorem sameKeys_trans {w w2 w3 : dWorld} (h1 : sameKeys w w2) (h2 : sameKeys w2 w3) :
    sameKeys w w3 :=
  ⟨h2.1.trans h1.1, fun j => (h2.2 j).trans (h1.2 j)⟩

theorem sameKeys_joints {w w2 : dWorld} (h : sameKeys w w2) (b : dBodyID) :
    (w2.joints b).map jointKey = (w.joints b).map jointKey := by
  simp only [dWorld.joints, h.1, List.map_map]
  apply List.map_congr_left
  intro j _
  exact h.2 j

theorem sameKeys_positions {w w2 : dWorld} (h : sameKeys w w2) (b : dBodyID) (gA gB : dGeomID) :
    matchingPositions w2 b gA gB = matchingPositions w b gA gB :=
  positions_congr gA gB _ _ 0 (sameKeys_joints h b)

theorem writeContact_absorb (P : PluginState) (b1 b2 : ℚ) (c : dContact) :
    DriveTracks.writeContact P b2 (DriveTracks.writeContact P b1 c) =
      DriveTracks.writeContact P b2 c := by
  have hb : DriveTracks.beltDirection P b2 (DriveTracks.writeContact P b1 c) =
      DriveTracks.beltDirection P b2 c := rfl
  have hf : DriveTracks.frictionDirection P b2 (DriveTracks.writeContact P b1 c) =
      DriveTracks.frictionDirection P b2 c := by
    simp only [DriveTracks.frictionDirection, hb]
    rfl
  have hm : ∀ m x : Nat, (m ||| x) ||| x = m ||| x := by
    intro m x
    rw [Nat.or_assoc, Nat.or_self]
  simp only [DriveTracks.writeContact] at hb hf ⊢
  simp only [hb, hf, hm]

theorem store_joint_self (w : dWorld) (p : dContactPtr) (c : dContact) :
    (w.store p c).joint p = dxJoint.contact c := by
  simp [dWorld.store]

theorem store_joint_of_ne (w : dWorld) (p : dContactPtr) (c : dContact) (j : dJointID)
    (h : j ≠ p) : (w.store p c).joint j = w.joint j := by
  simp [dWorld.store, h]

theorem sameKeys_store (P : PluginState) (beltSpeed : ℚ) (w : dWorld) (p : dContactPtr)
    (c : dContact) (h : w.joint p = dxJoint.contact c) :
    sameKeys w (w.store p (DriveTracks.writeContact P beltSpeed c)) := by
  refine ⟨rfl, ?_⟩
  intro j
  by_cases hj : j = p
  · rw [hj, store_joint_self, h]
    rfl
  · rw [store_joint_of_ne _ _ _ _ hj]

theorem sameKeys_length {w w2 : dWorld} (h : sameKeys w w2) (b : dBodyID) (gA gB : dGeomID)
    (j : Nat) :
    (matchingFrom (w2.joints b) gA gB j).length = (matchingFrom (w.joints b) gA gB j).length := by
  have := congrArg List.length (positions_congr gA gB _ _ j (sameKeys_joints h b))
  simpa using this

theorem validReads_of_sameKeys {mc : Machine} {w w2 : dWorld} (h : sameKeys w w2)
    (hv : validReads mc w) : validReads mc w2 := by
  intro t a
  obtain ⟨j, c, h1, h2⟩ := hv t a
  have hk := h.2 j
  rw [h2] at hk
  cases hj : w2.joint j with
  | contact c2 => exact ⟨j, c2, h1, hj⟩
  | other k => rw [hj] at hk; cases hk

theorem contactLoop_advanced (P : PluginState) (beltSpeed : ℚ) (mc : Machine) (b : dBodyID)
    (gA gB : dGeomID) :
    ∀ (fuel j : Nat) (st : DriveState) (a : StackAddr),
      (st.world.bodyJoint b).length - j < fuel →
      DriveTracks.contactLoop P beltSpeed mc fuel st (advanced a st.world.joints b gA gB j) =
        (DriveTracks.writeReads P beltSpeed mc
            (matchingFrom (st.world.joints b) gA gB j).length a st).map
          (fun r => (r, !(matchingFrom (st.world.joints b) gA gB j).isEmpty)) := by
  intro fuel
  induction fuel with
  | zero => intro j st a h; omega
  | succ fuel ih =>
    intro j st a h
    have hlen : (st.world.joints b).length = (st.world.bodyJoint b).length := by
      simp [dWorld.joints]
    rcases scan_spec (st.world.joints b) gA gB j with ⟨h1, h2⟩ | ⟨k, c, h1, h2, h3, h4⟩
    · simp [DriveTracks.contactLoop, advanced, ContactIterator.operatorNe,
        ContactIterator.operatorEq, ContactIterator.end, ContactIterator.mk1, h1, h2,
        DriveTracks.writeReads]
    · have hk : k < (st.world.joints b).length := by
        rcases Nat.lt_or_ge k (st.world.joints b).length with hlt | hge
        · exact hlt
        · rw [List.getElem?_eq_none hge] at h3; cases h3
      rw [h4, List.length_cons, DriveTracks.writeReads]
      cases hr : mc.read st.reads a with
      | none =>
        simp [DriveTracks.contactLoop, advanced, ContactIterator.operatorNe,
          ContactIterator.operatorEq, ContactIterator.end, ContactIterator.mk1,
          ContactIterator.operatorDeref, h1, hr]
      | some p =>
        cases hp : st.world.joint p with
        | other t =>
          simp [DriveTracks.contactLoop, advanced, ContactIterator.operatorNe,
            ContactIterator.operatorEq, ContactIterator.end, ContactIterator.mk1,
            ContactIterator.operatorDeref, h1, hr, hp]
        | contact c0 =>
          have hkeys := sameKeys_store P beltSpeed st.world p c0 hp
          have hrec := ih (k + 1)
            { st with
              world := st.world.store p (DriveTracks.writeContact P beltSpeed c0),
              reads := st.reads + 1 } mc.addrInLoop (by simp only [hkeys.1]; omega)
          simp only [sameKeys_length hkeys b gA gB (k + 1)] at hrec
          simp only [advanced] at hrec
          simp [DriveTracks.contactLoop, advanced, ContactIterator.operatorNe,
            ContactIterator.operatorEq, ContactIterator.end, ContactIterator.mk1,
            ContactIterator.operatorDeref, ContactIterator.operatorInc, h1, hr, hp, hrec,
            Option.map_map, Function.comp_def]

theorem contactLoop_begin (P : PluginState) (beltSpeed : ℚ) (mc : Machine) (st : DriveState)
    (b : dBodyID) (gA gB : dGeomID) (fuel : Nat) :
    DriveTracks.contactLoop P beltSpeed mc fuel st (ContactIterator.begin b gA gB) =
      DriveTracks.contactLoop P beltSpeed mc fuel st
        (advanced mc.addrInEq st.world.joints b gA gB 0) := by
  cases fuel with
  | zero => rfl
  | succ fuel =>
    simp [DriveTracks.contactLoop, advanced, ContactIterator.operatorNe,
      ContactIterator.operatorEq, ContactIterator.begin, ContactIterator.mk3,
      ContactIterator.operatorInc]

theorem noBelt_iff (P : PluginState) (contact : Contact) :
    (!DriveTracks.isTrack P (DriveTracks.geom1 contact) &&
        !DriveTracks.isTrack P (DriveTracks.geom2 contact)) = true ↔
      (¬ (P.categoryBits contact.collision1.CollisionId &&& P.BELT_CATEGORY) > 0 ∧
        ¬ (P.categoryBits contact.collision2.CollisionId &&& P.BELT_CATEGORY) > 0) := by
  simp only [DriveTracks.isTrack, DriveTracks.geom1, DriveTracks.geom2]
  by_cases h : contact.collision1.ODEId = 0
  · simp only [h, if_true, Bool.and_eq_true, Bool.not_eq_true', decide_eq_false_iff_not]
    exact And.comm
  · simp only [h, if_false, Bool.and_eq_true, Bool.not_eq_true', decide_eq_false_iff_not]

theorem not_skip_of (P : PluginState) (contact : Contact)
    (hns : DriveTracks.skipped contact = false)
    (hbelt : (P.categoryBits contact.collision1.CollisionId &&& P.BELT_CATEGORY) > 0 ∨
      (P.categoryBits contact.collision2.CollisionId &&& P.BELT_CATEGORY) > 0) :
    ¬ (DriveTracks.skipped contact ||
      (!DriveTracks.isTrack P (DriveTracks.geom1 contact) &&
        !DriveTracks.isTrack P (DriveTracks.geom2 contact))) = true := by
  intro h
  rw [hns, Bool.false_or, noBelt_iff] at h
  rcases hbelt with hb | hb
  · exact h.1 hb
  · exact h.2 hb

theorem filtered_eq_false (P : PluginState) (contact : Contact)
    (hns : DriveTracks.skipped contact = false)
    (hbelt : (P.categoryBits contact.collision1.CollisionId &&& P.BELT_CATEGORY) > 0 ∨
      (P.categoryBits contact.collision2.CollisionId &&& P.BELT_CATEGORY) > 0) :
    DriveTracks.filtered P contact = false := by
  have h := not_skip_of P contact hns hbelt
  simpa [DriveTracks.filtered] using h

/-- The body of the outer loop in closed form: a filtered contact leaves the state
as it is, a contact without a matching joint adds a warning, and any other contact
makes one pass of the inner loop for every matching joint. -/
theorem processContact_eq (P : PluginState) (mc : Machine) (st : DriveState)
    (contact : Contact) :
    DriveTracks.processContact P mc st contact =
      if DriveTracks.filtered P contact then some st
      else if matchingPositions st.world (DriveTracks.body1 contact)
          (DriveTracks.geom1 contact) (DriveTracks.geom2 contact) = [] then
        some { st with warned := st.warned ++ [contact] }
      else
        DriveTracks.writeReads P (DriveTracks.beltSpeed P contact) mc
          (matchingPositions st.world (DriveTracks.body1 contact)
            (DriveTracks.geom1 contact) (DriveTracks.geom2 contact)).length
          mc.addrInEq st := by
  unfold DriveTracks.processContact DriveTracks.filtered
  by_cases h1 : DriveTracks.skipped contact = true
  · simp [h1]
  · by_cases h2 : (!DriveTracks.isTrack P (DriveTracks.geom1 contact) &&
        !DriveTracks.isTrack P (DriveTracks.geom2 contact)) = true
    · simp [h1, h2]
    · rw [contactLoop_begin, contactLoop_advanced P _ mc _ _ _ _ 0 st _ (by omega)]
      have h1f : DriveTracks.skipped contact = false := by simpa using h1
      have h2f : (!DriveTracks.isTrack P (DriveTracks.geom1 contact) &&
          !DriveTracks.isTrack P (DriveTracks.geom2 contact)) = false := by simpa using h2
      rw [if_neg h1, if_neg h2, h1f, h2f]
      simp only [Bool.or_self, Bool.false_eq_true, if_false, matchingPositions,
        List.map_eq_nil_iff, List.length_map]
      by_cases he : matchingFrom (st.world.joints (DriveTracks.body1 contact))
          (DriveTracks.geom1 contact) (DriveTracks.geom2 contact) 0 = []
      · simp [he, DriveTracks.writeReads]
      · have he2 : (matchingFrom (st.world.joints (DriveTracks.body1 contact))
            (DriveTracks.geom1 contact) (DriveTracks.geom2 contact) 0).isEmpty = false := by
          rw [Bool.eq_false_iff]
          intro hh
          exact he (List.isEmpty_iff.mp hh)
        rw [if_neg he, he2]
        cases DriveTracks.writeReads P (DriveTracks.beltSpeed P contact) mc
          (matchingFrom (st.world.joints (DriveTracks.body1 contact))
            (DriveTracks.geom1 contact) (DriveTracks.geom2 contact) 0).length
          mc.addrInEq st <;> simp

/-- What `n` passes of the inner loop leave: the warnings as they were, `n` more
reads, the joint lists and geometry pairs as they were, and in every joint a read
returned the write-back of its record; every other joint as it was. -/
theorem writeReads_spec (P : PluginState) (beltSpeed : ℚ) (mc : Machine) :
    ∀ (n : Nat) (a : StackAddr) (st r : DriveState),
      DriveTracks.writeReads P beltSpeed mc n a st = some r →
      r.warned = st.warned ∧ r.reads = st.reads + n ∧ sameKeys st.world r.world ∧
      ∃ ys : List dContactPtr, readsFrom mc n a st.reads = some ys ∧
        (∀ j : dJointID, j ∉ ys → r.world.joint j = st.world.joint j) ∧
        ∀ p ∈ ys, ∃ c : dContact, st.world.joint p = dxJoint.contact c ∧
          r.world.joint p = dxJoint.contact (DriveTracks.writeContact P beltSpeed c) := by
  intro n
  induction n with
  | zero =>
    intro a st r h
    simp only [DriveTracks.writeReads, Option.some.injEq] at h
    subst h
    exact ⟨rfl, rfl, sameKeys_refl _, [], rfl, fun _ _ => rfl, fun p hp => by cases hp⟩
  | succ n ih =>
    intro a st r h
    rw [DriveTracks.writeReads] at h
    cases hr : mc.read st.reads a with
    | none => rw [hr] at h; cases h
    | some p =>
      rw [hr] at h
      simp only at h
      cases hp : st.world.joint p with
      | other t => rw [hp] at h; cases h
      | contact c0 =>
        rw [hp] at h
        simp only at h
        obtain ⟨h1, h2, h3, ys, h4, h5, h6⟩ := ih _ _ _ h
        have hkeys := sameKeys_store P beltSpeed st.world p c0 hp
        refine ⟨h1, by rw [h2]; simp only; omega, sameKeys_trans hkeys h3, p :: ys, ?_, ?_, ?_⟩
        · simp only at h4
          rw [readsFrom, hr]
          simp only [h4, Option.map_some']
        · intro j hj
          have hjp : j ≠ p := fun e => hj (by rw [e]; exact List.mem_cons_self _ _)
          have hjy : j ∉ ys := fun e => hj (List.mem_cons_of_mem _ e)
          rw [h5 j hjy]
          exact store_joint_of_ne _ _ _ _ hjp
        · intro q hq
          by_cases hqy : q ∈ ys
          · obtain ⟨c, hc1, hc2⟩ := h6 q hqy
            by_cases hqp : q = p
            · subst hqp
              simp only at hc1
              rw [store_joint_self] at hc1
              injection hc1 with hc1
              refine ⟨c0, hp, ?_⟩
              rw [hc2, ← hc1, writeContact_absorb]
            · simp only at hc1
              rw [store_joint_of_ne _ _ _ _ hqp] at hc1
              exact ⟨c, hc1, hc2⟩
          · have hqp : q = p := by
              rcases List.mem_cons.1 hq with e | e
              · exact e
              · exact absurd e hqy
            subst hqp
            refine ⟨c0, hp, ?_⟩
            rw [h5 q hqy]
            exact store_joint_self _ _ _

theorem writeReads_isSome (P : PluginState) (beltSpeed : ℚ) (mc : Machine) :
    ∀ (n : Nat) (a : StackAddr) (st : DriveState), validReads mc st.world →
      ∃ r, DriveTracks.writeReads P beltSpeed mc n a st = some r := by
  intro n
  induction n with
  | zero => intro a st _; exact ⟨st, rfl⟩
  | succ n ih =>
    intro a st hv
    obtain ⟨j, c, h1, h2⟩ := hv st.reads a
    rw [DriveTracks.writeReads, h1]
    simp only [h2]
    exact ih _ _ (validReads_of_sameKeys (sameKeys_store P beltSpeed st.world j c h2) hv)

/-- What one pass of the body of the outer loop leaves. -/
theorem processContact_spec (P : PluginState) (mc : Machine) (st r : DriveState)
    (contact : Contact) (h : DriveTracks.processContact P mc st contact = some r) :
    sameKeys st.world r.world ∧
    r.reads = st.reads + DriveTracks.passCount P st.world contact ∧
    (∀ j : dJointID,
      (∀ (t : Nat) (a : StackAddr), st.reads ≤ t → t < r.reads → mc.read t a ≠ some j) →
      r.world.joint j = st.world.joint j) ∧
    ∀ j : dJointID, r.world.joint j = st.world.joint j ∨
      ∃ c : dContact, DriveTracks.filtered P contact = false ∧
        st.world.joint j = dxJoint.contact c ∧
        r.world.joint j =
          dxJoint.contact (DriveTracks.writeContact P (DriveTracks.beltSpeed P contact) c) := by
  rw [processContact_eq] at h
  by_cases hf : DriveTracks.filtered P contact = true
  · rw [if_pos hf] at h
    injection h with h
    subst h
    exact ⟨sameKeys_refl _, by simp [DriveTracks.passCount, hf], fun _ _ => rfl,
      fun _ => Or.inl rfl⟩
  · rw [if_neg hf] at h
    have hff : DriveTracks.filtered P contact = false := by simpa using hf
    by_cases he : matchingPositions st.world (DriveTracks.body1 contact)
        (DriveTracks.geom1 contact) (DriveTracks.geom2 contact) = []
    · rw [if_pos he] at h
      injection h with h
      subst h
      exact ⟨sameKeys_refl _, by simp [DriveTracks.passCount, hf, he], fun _ _ => rfl,
        fun _ => Or.inl rfl⟩
    · rw [if_neg he] at h
      obtain ⟨_, h2, h3, ys, h4, h5, h6⟩ := writeReads_spec P _ mc _ _ _ _ h
      refine ⟨h3, by rw [h2]; simp [DriveTracks.passCount, hf], ?_, ?_⟩
      · intro j hj
        apply h5
        intro hjy
        obtain ⟨t, a, ht1, ht2, ht3⟩ := readsFrom_mem mc _ _ _ _ h4 j hjy
        exact hj t a ht1 (by rw [h2]; exact ht2) ht3
      · intro j
        by_cases hjy : j ∈ ys
        · obtain ⟨c, hc1, hc2⟩ := h6 j hjy
          exact Or.inr ⟨c, hff, hc1, hc2⟩
        · exact Or.inl (h5 j hjy)

theorem processContact_isSome (P : PluginState) (mc : Machine) (st : DriveState)
    (contact : Contact) (hv : validReads mc st.world) :
    ∃ r, DriveTracks.processContact P mc st contact = some r := by
  rw [processContact_eq]
  split_ifs
  · exact ⟨_, rfl⟩
  · exact ⟨_, rfl⟩
  · exact writeReads_isSome P _ mc _ _ st hv

theorem contactsLoop_isSome (P : PluginState) (mc : Machine) :
    ∀ (l : List Contact) (i : Nat) (st : DriveState), validReads mc st.world →
      ∃ r, DriveTracks.contactsLoop P mc i l st = some r := by
  intro l
  induction l with
  | nil => intro i st _; exact ⟨st, rfl⟩
  | cons k rest ih =>
    intro i st hv
    by_cases hc : i = P.contactCount
    · exact ⟨st, by simp [DriveTracks.contactsLoop, hc]⟩
    · obtain ⟨st2, hp⟩ := processContact_isSome P mc st k hv
      obtain ⟨r, hr⟩ := ih (i + 1) st2
        (validReads_of_sameKeys (processContact_spec P mc st st2 k hp).1 hv)
      exact ⟨r, by simp [DriveTracks.contactsLoop, hc, hp, hr]⟩

/-- The outer loop is the fold of its body over the contacts it visits. -/
theorem contactsLoop_eq_foldlM (P : PluginState) (mc : Machine) :
    ∀ (l : List Contact) (i : Nat) (st : DriveState), i ≤ P.contactCount →
      DriveTracks.contactsLoop P mc i l st =
        (l.take (P.contactCount - i)).foldlM (DriveTracks.processContact P mc) st := by
  intro l
  induction l with
  | nil => intro i st _; simp [DriveTracks.contactsLoop]
  | cons k rest ih =>
    intro i st hi
    by_cases hc : i = P.contactCount
    · simp [DriveTracks.contactsLoop, hc]
    · obtain ⟨n, hn⟩ : ∃ n, P.contactCount - i = n + 1 := ⟨P.contactCount - i - 1, by omega⟩
      have hn2 : P.contactCount - (i + 1) = n := by omega
      simp only [DriveTracks.contactsLoop, if_neg hc]
      rw [hn, List.take_succ_cons, List.foldlM_cons]
      cases hp : DriveTracks.processContact P mc st k with
      | none => rfl
      | some st2 =>
        simp only [Option.bind_eq_bind, Option.some_bind]
        rw [ih (i + 1) st2 (by omega), hn2]

theorem DriveTracks_eq_foldlM (P : PluginState) (mc : Machine) (w : dWorld) :
    DriveTracks P mc w =
      (P.contacts.take P.contactCount).foldlM (DriveTracks.processContact P mc) ⟨w, [], 0⟩ := by
  unfold DriveTracks
  by_cases h : P.contactCount = 0
  · simp [h]
  · rw [if_neg h, contactsLoop_eq_foldlM P mc _ 0 _ (Nat.zero_le _), Nat.sub_zero]

theorem or_or_and_left (m a b : Nat) : (m ||| (a ||| b)) &&& a = a := by
  apply Nat.eq_of_testBit_eq
  intro i
  simp only [Nat.testBit_and, Nat.testBit_or]
  cases m.testBit i <;> cases a.testBit i <;> cases b.testBit i <;> rfl

theorem or_or_and_right (m a b : Nat) : (m ||| (a ||| b)) &&& b = b := by
  apply Nat.eq_of_testBit_eq
  intro i
  simp only [Nat.testBit_and, Nat.testBit_or]
  cases m.testBit i <;> cases a.testBit i <;> cases b.testBit i <;> rfl

theorem forEachContact_world (mc : Machine) (w : dWorld) (b : dBodyID) (gA gB : dGeomID)
    (reads : Nat) :
    forEachContact mc w.joints ((w.bodyJoint b).length + 1) reads
        (ContactIterator.begin b gA gB) =
      readsFrom mc (matchingPositions w b gA gB).length mc.addrInEq reads := by
  rw [forEachContact_begin, forEachContact_advanced mc w.joints b gA gB _ 0 reads _
    (by simp [dWorld.joints])]
  simp [matchingPositions]

/-- One pass of the body of the outer loop for a contact that is not filtered, in
terms of the pointers the enumerator yields. -/
theorem processContact_yields (P : PluginState) (mc : Machine) (st r : DriveState)
    (contact : Contact) (hf : DriveTracks.filtered P contact = false)
    (h : DriveTracks.processContact P mc st contact = some r) :
    ∃ ys : List dContactPtr,
      forEachContact mc st.world.joints
          ((st.world.bodyJoint (DriveTracks.body1 contact)).length + 1) st.reads
          (ContactIterator.begin (DriveTracks.body1 contact) (DriveTracks.geom1 contact)
            (DriveTracks.geom2 contact)) = some ys ∧
      ys.length = (matchingPositions st.world (DriveTracks.body1 contact)
        (DriveTracks.geom1 contact) (DriveTracks.geom2 contact)).length ∧
      r.reads = st.reads + ys.length ∧
      r.warned = (if ys = [] then st.warned ++ [contact] else st.warned) ∧
      (∀ p ∈ ys, ∃ c : dContact, st.world.joint p = dxJoint.contact c ∧
        r.world.joint p =
          dxJoint.contact (DriveTracks.writeContact P (DriveTracks.beltSpeed P contact) c)) ∧
      ∀ j : dJointID, j ∉ ys → r.world.joint j = st.world.joint j := by
  rw [processContact_eq, hf] at h
  simp only [Bool.false_eq_true, if_false] at h
  rw [forEachContact_world]
  by_cases he : matchingPositions st.world (DriveTracks.body1 contact)
      (DriveTracks.geom1 contact) (DriveTracks.geom2 contact) = []
  · rw [if_pos he] at h
    injection h with h
    subst h
    refine ⟨[], (by rw [he]; rfl), (by rw [he]), rfl, (by simp),
      (fun p hp => by cases hp), fun _ _ => rfl⟩
  · rw [if_neg he] at h
    obtain ⟨h1, h2, _, ys, h4, h5, h6⟩ := writeReads_spec P _ mc _ _ _ _ h
    have hlen := readsFrom_length mc _ _ _ _ h4
    have hne : ys ≠ [] := by
      intro e
      rw [e] at hlen
      exact he (List.length_eq_zero.1 hlen.symm)
    exact ⟨ys, h4, hlen, (by rw [h2, hlen]), (by rw [if_neg hne, h1]), h6, h5⟩

theorem writeBackSpec_writeContact (P : PluginState) (beltSpeed : ℚ) (c : dContact) :
    DriveTracks.writeBackSpec P beltSpeed c (DriveTracks.writeContact P beltSpeed c) := by
  refine ⟨rfl, rfl, or_or_and_left _ _ _, or_or_and_right _ _ _, ?_, rfl⟩
  intro i
  simp [DriveTracks.writeContact, Nat.testBit_or, Bool.or_assoc]

theorem DriveTracks_isSome (P : PluginState) (mc : Machine) (w : dWorld)
    (hv : validReads mc w) : ∃ r, DriveTracks P mc w = some r := by
  unfold DriveTracks
  split_ifs
  · exact ⟨_, rfl⟩
  · exact contactsLoop_isSome P mc _ 0 _ hv

theorem validReads_staleMachine : validReads staleMachine sampleWorld :=
  fun _ _ => ⟨0, _, rfl, rfl⟩

theorem passYields_congr (P : PluginState) (mc : Machine) {w w2 : dWorld}
    (h : sameKeys w w2) (reads : Nat) (contact : Contact) :
    DriveTracks.passYields P mc w2 reads contact =
      DriveTracks.passYields P mc w reads contact := by
  simp only [DriveTracks.passYields, forEachContact_world, sameKeys_positions h]

/-- What the outer loop leaves, in terms of the pointers the enumerator yields in
its passes: every record a yielded pointer designates is the write-back of what it
was, made with the belt speed of a contact visited, and every other record is as it
was. -/
theorem contactsLoop_yields (P : PluginState) (mc : Machine) (w0 : dWorld) :
    ∀ (l : List Contact) (i : Nat) (st r : DriveState), i ≤ P.contactCount →
      sameKeys w0 st.world →
      DriveTracks.contactsLoop P mc i l st = some r →
      ∃ ys : List dContactPtr,
        DriveTracks.runYields P mc w0 (l.take (P.contactCount - i)) st.reads = some ys ∧
        r.reads = st.reads + ys.length ∧
        (∀ j : dJointID, j ∉ ys → r.world.joint j = st.world.joint j) ∧
        ∀ j ∈ ys, ∃ k ∈ l.take (P.contactCount - i), ∃ c : dContact,
          DriveTracks.filtered P k = false ∧ st.world.joint j = dxJoint.contact c ∧
          r.world.joint j =
            dxJoint.contact (DriveTracks.writeContact P (DriveTracks.beltSpeed P k) c) := by
  intro l
  induction l with
  | nil =>
    intro i st r _ _ h
    simp only [DriveTracks.contactsLoop, Option.some.injEq] at h
    subst h
    exact ⟨[], by simp [DriveTracks.runYields], rfl, fun _ _ => rfl, fun j hj => by cases hj⟩
  | cons k rest ih =>
    intro i st r hi hkeys h
    by_cases hc : i = P.contactCount
    · simp only [DriveTracks.contactsLoop, if_pos hc, Option.some.injEq] at h
      subst h
      exact ⟨[], by simp [hc, DriveTracks.runYields], rfl, fun _ _ => rfl,
        fun j hj => by cases hj⟩
    · obtain ⟨n, hn⟩ : ∃ n, P.contactCount - i = n + 1 := ⟨P.contactCount - i - 1, by omega⟩
      have hn2 : P.contactCount - (i + 1) = n := by omega
      simp only [DriveTracks.contactsLoop, if_neg hc] at h
      cases hp : DriveTracks.processContact P mc st k with
      | none => rw [hp] at h; cases h
      | some st2 =>
        rw [hp] at h
        simp only at h
        have hkeys2 := sameKeys_trans hkeys (processContact_spec P mc st st2 k hp).1
        obtain ⟨ys2, b1, b2, b3, b4⟩ := ih (i + 1) st2 r (by omega) hkeys2 h
        rw [hn2] at b1 b4
        rw [hn, List.take_succ_cons]
        by_cases hf : DriveTracks.filtered P k = true
        · have hst : st2 = st := by
            rw [processContact_eq, if_pos hf] at hp
            injection hp with hp
            exact hp.symm
          subst hst
          refine ⟨ys2, ?_, b2, b3, ?_⟩
          · simp [DriveTracks.runYields, DriveTracks.passYields, hf, b1]
          · intro j hj
            obtain ⟨k2, hk2, c, h1, h2, h3⟩ := b4 j hj
            exact ⟨k2, List.mem_cons_of_mem _ hk2, c, h1, h2, h3⟩
        · have hff : DriveTracks.filtered P k = false := by simpa using hf
          obtain ⟨ys1, a1, _, a3, _, a5, a6⟩ := processContact_yields P mc st st2 k hff hp
          have hpy : DriveTracks.passYields P mc w0 st.reads k = some ys1 := by
            rw [← passYields_congr P mc hkeys, DriveTracks.passYields, hff]
            simpa using a1
          rw [a3] at b1
          refine ⟨ys1 ++ ys2, ?_, ?_, ?_, ?_⟩
          · simp [DriveTracks.runYields, hpy, b1]
          · rw [b2, a3, List.length_append]
            omega
          · intro j hj
            have hj1 : j ∉ ys1 := fun e => hj (List.mem_append_left _ e)
            have hj2 : j ∉ ys2 := fun e => hj (List.mem_append_right _ e)
            rw [b3 j hj2, a6 j hj1]
          · intro j hj
            by_cases hj2 : j ∈ ys2
            · obtain ⟨k2, hk2, c2, h1, h2, h3⟩ := b4 j hj2
              by_cases hj1 : j ∈ ys1
              · obtain ⟨c, hc1, hc2⟩ := a5 j hj1
                rw [hc2] at h2
                injection h2 with h2
                refine ⟨k2, List.mem_cons_of_mem _ hk2, c, h1, hc1, ?_⟩
                rw [h3, ← h2, writeContact_absorb]
              · rw [a6 j hj1] at h2
                exact ⟨k2, List.mem_cons_of_mem _ hk2, c2, h1, h2, h3⟩
            · have hj1 : j ∈ ys1 := by
                rcases List.mem_append.1 hj with e | e
                · exact e
                · exact absurd e hj2
              obtain ⟨c, hc1, hc2⟩ := a5 j hj1
              exact ⟨k, List.mem_cons_self _ _, c, hff, hc1, by rw [b3 j hj2, hc2]⟩

theorem DriveTracks_yields (P : PluginState) (mc : Machine) (w : dWorld) (r : DriveState)
    (h : DriveTracks P mc w = some r) :
    ∃ ys : List dContactPtr,
      DriveTracks.runYields P mc w (P.contacts.take P.contactCount) 0 = some ys ∧
      r.reads = ys.length ∧
      (∀ j : dJointID, j ∉ ys → r.world.joint j = w.joint j) ∧
      ∀ j ∈ ys, ∃ k ∈ P.contacts.take P.contactCount, ∃ c : dContact,
        DriveTracks.filtered P k = false ∧ w.joint j = dxJoint.contact c ∧
        r.world.joint j =
          dxJoint.contact (DriveTracks.writeContact P (DriveTracks.beltSpeed P k) c) := by
  unfold DriveTracks at h
  by_cases hc : P.contactCount = 0
  · rw [if_pos hc] at h
    injection h with h
    subst h
    exact ⟨[], by simp [hc, DriveTracks.runYields], rfl, fun _ _ => rfl,
      fun j hj => by cases hj⟩
  · rw [if_neg hc] at h
    obtain ⟨ys, h1, h2, h3, h4⟩ :=
      contactsLoop_yields P mc w _ 0 _ r (Nat.zero_le _) (sameKeys_refl _) h
    simp only [Nat.sub_zero, Nat.zero_add] at h1 h2 h4
    exact ⟨ys, h1, h2, h3, h4⟩

/-! ## The write-back of the inner loop -/

/-- C18: the records the write-back of `DriveTracks` leaves. On every machine,
whenever the pass of the loop body for a contact that is not filtered comes to its
end, every record a pointer yielded by the enumerator designates is as the
specification says: `fdir1` is the vector returned by `ComputeFrictionDirection`,
`surface.motion1` is `ComputeSurfaceMotion(beltSpeed, beltDirection, that vector)`,
both the `dContactFDir1` and the `dContactMotion1` bits of `surface.mode` are set,
a bit of the mode is set exactly when it was set before or is one of these two, and
the normal, the position and the geometry pair are unchanged; every other record is
as it was. Whenever a call of `DriveTracks` comes to its end, every record that a
pointer yielded in one of its passes designates is the write-back, in these terms,
of what it was before the call, made with the belt speed of one of the contacts
visited, and every other record is as it was. The pass and the call come to their
end whenever every read through the iterator returns a pointer to a contact
record. -/
theorem C18_write_back (P : PluginState) (mc : Machine) (st : DriveState)
    (contact : Contact) (hns : DriveTracks.skipped contact = false)
    (hbelt : (P.categoryBits contact.collision1.CollisionId &&& P.BELT_CATEGORY) > 0 ∨
      (P.categoryBits contact.collision2.CollisionId &&& P.BELT_CATEGORY) > 0) :
    (∀ r : DriveState, DriveTracks.processContact P mc st contact = some r →
      ∃ ys : List dContactPtr,
        forEachContact mc st.world.joints
            ((st.world.bodyJoint (DriveTracks.body1 contact)).length + 1) st.reads
            (ContactIterator.begin (DriveTracks.body1 contact) (DriveTracks.geom1 contact)
              (DriveTracks.geom2 contact)) = some ys ∧
        (∀ p ∈ ys, ∃ c0 c1 : dContact, st.world.joint p = dxJoint.contact c0 ∧
          r.world.joint p = dxJoint.contact c1 ∧
          DriveTracks.writeBackSpec P (DriveTracks.beltSpeed P contact) c0 c1) ∧
        ∀ j : dJointID, j ∉ ys → r.world.joint j = st.world.joint j) ∧
    (validReads mc st.world →
      ∃ r : DriveState, DriveTracks.processContact P mc st contact = some r) ∧
    (∀ (w : dWorld) (r : DriveState), DriveTracks P mc w = some r →
      ∃ ys : List dContactPtr,
        DriveTracks.runYields P mc w (P.contacts.take P.contactCount) 0 = some ys ∧
        (∀ j ∈ ys, ∃ k ∈ P.contacts.take P.contactCount, ∃ c0 c1 : dContact,
          DriveTracks.filtered P k = false ∧ w.joint j = dxJoint.contact c0 ∧
          r.world.joint j = dxJoint.contact c1 ∧
          DriveTracks.writeBackSpec P (DriveTracks.beltSpeed P k) c0 c1) ∧
        ∀ j : dJointID, j ∉ ys → r.world.joint j = w.joint j) ∧
    (∀ w : dWorld, validReads mc w → ∃ r : DriveState, DriveTracks P mc w = some r) := by
  have hf := filtered_eq_false P contact hns hbelt
  refine ⟨?_, processContact_isSome P mc st contact, ?_, fun w => DriveTracks_isSome P mc w⟩
  · intro r hr
    obtain ⟨ys, h1, _, _, _, h5, h6⟩ := processContact_yields P mc st r contact hf hr
    refine ⟨ys, h1, ?_, h6⟩
    intro p hp
    obtain ⟨c, hc1, hc2⟩ := h5 p hp
    exact ⟨c, _, hc1, hc2, writeBackSpec_writeContact P _ c⟩
  · intro w r hr
    obtain ⟨ys, g1, _, g3, g4⟩ := DriveTracks_yields P mc w r hr
    refine ⟨ys, g1, ?_, g3⟩
    intro j hj
    obtain ⟨k, hk, c, h1, h2, h3⟩ := g4 j hj
    exact ⟨k, hk, c, _, h1, h2, h3, writeBackSpec_writeContact P _ c⟩

/-- Witness of C18: the left track of the sample vehicle on the ground, both belts
commanded to speed 1, on the machine whose dead slots hold the pointer to joint 0:
the pass comes to its end and leaves in joint 0 a record written back from the
record it held. -/
theorem C18_write_back_witness :
    ∃ (r : DriveState) (c1 : dContact),
      DriveTracks.processContact (samplePlugin 1 1 1 [contactLeftGround]) staleMachine
        ⟨sampleWorld, [], 0⟩ contactLeftGround = some r ∧
      r.world.joint 0 = dxJoint.contact c1 ∧
      DriveTracks.writeBackSpec (samplePlugin 1 1 1 [contactLeftGround])
        (DriveTracks.beltSpeed (samplePlugin 1 1 1 [contactLeftGround]) contactLeftGround)
        (groundContact ⟨0, 0, 1⟩ ⟨1, 1, 0⟩ 10 20) c1 := by
  have h := C18_write_back (samplePlugin 1 1 1 [contactLeftGround]) staleMachine
    ⟨sampleWorld, [], 0⟩ contactLeftGround rfl (Or.inl (by decide))
  obtain ⟨r, hr⟩ := h.2.1 validReads_staleMachine
  obtain ⟨ys, h1, h2, _⟩ := h.1 r hr
  have hy : ys = [0, 0] := by
    have h0 : forEachContact staleMachine sampleWorld.joints
        ((sampleWorld.bodyJoint (DriveTracks.body1 contactLeftGround)).length + 1) 0
        (ContactIterator.begin (DriveTracks.body1 contactLeftGround)
          (DriveTracks.geom1 contactLeftGround) (DriveTracks.geom2 contactLeftGround)) =
        some [0, 0] := by
      rw [forEachContact_world]
      have hp : matchingPositions sampleWorld (DriveTracks.body1 contactLeftGround)
          (DriveTracks.geom1 contactLeftGround) (DriveTracks.geom2 contactLeftGround) =
          [0, 3] := by decide
      rw [hp]
      rfl
    rw [h0] at h1
    injection h1 with h1
    exact h1.symm
  subst hy
  obtain ⟨c0, c1, hc0, hc1, hc2⟩ := h2 0 (List.mem_cons_self 0 _)
  have hc : c0 = groundContact ⟨0, 0, 1⟩ ⟨1, 1, 0⟩ 10 20 := by
    have : sampleWorld.joint 0 = dxJoint.contact (groundContact ⟨0, 0, 1⟩ ⟨1, 1, 0⟩ 10 20) :=
      rfl
    simp only at hc0
    rw [this] at hc0
    injection hc0 with hc0
    exact hc0.symm
  subst hc
  exact ⟨r, c1, hr, hc1, hc2⟩

/-! ## Straight driving on a flat contact -/

theorem radiusOf_eq_none (P : PluginState) (h : P.trackVelocity.LEFT = P.trackVelocity.RIGHT) :
    DriveTracks.radiusOf P = none := by
  have ha : DriveTracks.angularSpeedOf P = 0 := by
    simp [DriveTracks.angularSpeedOf, DriveTracks.angularSpeed, h]
  have h0 : |(0 : ℚ)| < 1 / 10 := by norm_num
  simp only [DriveTracks.radiusOf, ha, DriveTracks.desiredRotationRadiusSigned, if_pos h0]

theorem Vector3d.Cross_SquaredLength_of_perp (a b : Vector3d) (ha : a.SquaredLength = 1)
    (hb : b.SquaredLength = 1) (hperp : a.Dot b = 0) : (a.Cross b).SquaredLength = 1 := by
  have h := Vector3d.Dot_sq_add_Cross a b
  rw [ha, hb, hperp] at h
  linarith

theorem Vector3d.Dot_self (a : Vector3d) : a.Dot a = a.SquaredLength := by
  simp only [Vector3d.Dot, Vector3d.SquaredLength]

theorem Vector3d.Dot_neg_right (a b : Vector3d) : a.Dot b.neg = -(a.Dot b) := by
  simp only [Vector3d.neg, Vector3d.Dot]
  ring

/-- After `SetTrackVelocity(v, v)` the write-back of a contact record whose unit
normal `n` is perpendicular to the unit body Y axis `y` is made with
`drivingStraight = true` and the belt speed `-v`; the belt direction is `n x y`,
negated if the belt speed is positive, the friction direction written is that belt
direction, and the surface motion written has the magnitude `|v|`. -/
theorem writeContact_straight (P : PluginState) (v : ℚ) (contact : Contact)
    (c : dContact) (hvel : P.trackVelocity = SetTrackVelocity v v)
    (hn : c.geom.normal.SquaredLength = 1)
    (hy : (DriveTracks.bodyYAxisGlobal P.bodyPose).SquaredLength = 1)
    (hperp : c.geom.normal.Dot (DriveTracks.bodyYAxisGlobal P.bodyPose) = 0) :
    DriveTracks.drivingStraight (DriveTracks.radiusOf P) = true ∧
    DriveTracks.beltSpeed P contact = -v ∧
    DriveTracks.beltDirection P (DriveTracks.beltSpeed P contact) c =
      (if DriveTracks.beltSpeed P contact > 0 then
        (c.geom.normal.Cross (DriveTracks.bodyYAxisGlobal P.bodyPose)).neg
      else c.geom.normal.Cross (DriveTracks.bodyYAxisGlobal P.bodyPose)) ∧
    (DriveTracks.writeContact P (DriveTracks.beltSpeed P contact) c).fdir1 =
      DriveTracks.beltDirection P (DriveTracks.beltSpeed P contact) c ∧
    ((DriveTracks.writeContact P (DriveTracks.beltSpeed P contact) c).fdir1 =
        c.geom.normal.Cross (DriveTracks.bodyYAxisGlobal P.bodyPose) ∨
      (DriveTracks.writeContact P (DriveTracks.beltSpeed P contact) c).fdir1 =
        (c.geom.normal.Cross (DriveTracks.bodyYAxisGlobal P.bodyPose)).neg) ∧
    |(DriveTracks.writeContact P (DriveTracks.beltSpeed P contact) c).surface.motion1| = |v| := by
  have hlr : P.trackVelocity.LEFT = P.trackVelocity.RIGHT := by
    rw [hvel]; rfl
  have hr := radiusOf_eq_none P hlr
  have hbs : DriveTracks.beltSpeed P contact = -v := by
    simp [DriveTracks.beltSpeed, hvel, SetTrackVelocity]
  have hcs := Vector3d.Cross_SquaredLength_of_perp _ _ hn hy hperp
  have hbd : DriveTracks.beltDirection P (DriveTracks.beltSpeed P contact) c =
      (if DriveTracks.beltSpeed P contact > 0 then
        (c.geom.normal.Cross (DriveTracks.bodyYAxisGlobal P.bodyPose)).neg
      else c.geom.normal.Cross (DriveTracks.bodyYAxisGlobal P.bodyPose)) := rfl
  have hfd : DriveTracks.frictionDirection P (DriveTracks.beltSpeed P contact) c =
      DriveTracks.beltDirection P (DriveTracks.beltSpeed P contact) c := by
    simp only [DriveTracks.frictionDirection, hr, DriveTracks.drivingStraight, Option.isNone_none,
      ComputeFrictionDirection_straight]
    rw [hbd]
    split_ifs with h1 h2 h2
    · rfl
    · exfalso
      rw [Vector3d.Dot_neg_right, Vector3d.Dot_self, hcs] at h2
      norm_num at h2
    · exfalso
      rw [Vector3d.Dot_self, hcs] at h2
      norm_num at h2
    · rfl
  have hfd1 : (DriveTracks.writeContact P (DriveTracks.beltSpeed P contact) c).fdir1 =
      DriveTracks.beltDirection P (DriveTracks.beltSpeed P contact) c := by
    rw [← hfd]; rfl
  refine ⟨by rw [hr]; rfl, hbs, hbd, hfd1, ?_, ?_⟩
  · rw [hfd1, hbd]
    split_ifs
    · exact Or.inr rfl
    · exact Or.inl rfl
  · have hm : (DriveTracks.writeContact P (DriveTracks.beltSpeed P contact) c).surface.motion1 =
        ComputeSurfaceMotion (DriveTracks.beltSpeed P contact)
          (DriveTracks.beltDirection P (DriveTracks.beltSpeed P contact) c)
          (DriveTracks.frictionDirection P (DriveTracks.beltSpeed P contact) c) := rfl
    have hdot : (DriveTracks.beltDirection P (DriveTracks.beltSpeed P contact) c).Dot
        (DriveTracks.beltDirection P (DriveTracks.beltSpeed P contact) c) = 1 := by
      rw [Vector3d.Dot_self, hbd]
      split_ifs
      · rw [Vector3d.neg_SquaredLength, hcs]
      · exact hcs
    rw [hm, hfd, ComputeSurfaceMotion, hdot, hbs]
    simp

theorem sample_yaxis :
    DriveTracks.bodyYAxisGlobal (samplePlugin 1 1 1 [contactLeftGround]).bodyPose =
      ⟨0, 1, 0⟩ := by
  norm_num [samplePlugin, DriveTracks.bodyYAxisGlobal, Quaterniond.RotateVector,
    Quaterniond.mul, Quaterniond.Inverse, equal, Vector3d.add, Vector3d.sub, Vector3d.scale]

theorem sample_written :
    DriveTracks.writeContact (samplePlugin 1 1 1 [contactLeftGround]) (-1)
        (groundContact ⟨0, 0, 1⟩ ⟨1, 1, 0⟩ 10 20) =
      { surface := ⟨34, -1⟩, geom := ⟨⟨1, 1, 0⟩, ⟨0, 0, 1⟩, 10, 20⟩, fdir1 := ⟨-1, 0, 0⟩ } := by
  have hr : DriveTracks.radiusOf (samplePlugin 1 1 1 [contactLeftGround]) = none :=
    radiusOf_eq_none _ rfl
  simp only [DriveTracks.writeContact, DriveTracks.frictionDirection, hr,
    DriveTracks.drivingStraight, Option.isNone_none, ComputeFrictionDirection_straight,
    DriveTracks.beltDirection, sample_yaxis, groundContact, ComputeSurfaceMotion]
  norm_num [Vector3d.Cross, Vector3d.Dot, Vector3d.neg, samplePlugin]
  decide

theorem sample_run_stale :
    DriveTracks (samplePlugin 1 1 1 [contactLeftGround]) staleMachine sampleWorld =
      some ⟨(sampleWorld.store 0
          (DriveTracks.writeContact (samplePlugin 1 1 1 [contactLeftGround]) (-1)
            (groundContact ⟨0, 0, 1⟩ ⟨1, 1, 0⟩ 10 20))).store 0
          (DriveTracks.writeContact (samplePlugin 1 1 1 [contactLeftGround]) (-1)
            (DriveTracks.writeContact (samplePlugin 1 1 1 [contactLeftGround]) (-1)
              (groundContact ⟨0, 0, 1⟩ ⟨1, 1, 0⟩ 10 20))), [], 2⟩ := by
  rw [DriveTracks_eq_foldlM]
  have ht : (samplePlugin 1 1 1 [contactLeftGround]).contacts.take
      (samplePlugin 1 1 1 [contactLeftGround]).contactCount = [contactLeftGround] := rfl
  have hf : DriveTracks.filtered (samplePlugin 1 1 1 [contactLeftGround]) contactLeftGround =
      false := by decide
  have hb : DriveTracks.beltSpeed (samplePlugin 1 1 1 [contactLeftGround]) contactLeftGround =
      -1 := by decide
  have hp : matchingPositions sampleWorld (DriveTracks.body1 contactLeftGround)
      (DriveTracks.geom1 contactLeftGround) (DriveTracks.geom2 contactLeftGround) = [0, 3] := by
    decide
  rw [ht, List.foldlM_cons, processContact_eq, hf]
  simp only [Bool.false_eq_true, if_false, hp, hb]
  rfl

theorem sample_run_dead :
    DriveTracks (samplePlugin 1 1 1 [contactLeftGround]) deadMachine sampleWorld = none := by
  rw [DriveTracks_eq_foldlM]
  have ht : (samplePlugin 1 1 1 [contactLeftGround]).contacts.take
      (samplePlugin 1 1 1 [contactLeftGround]).contactCount = [contactLeftGround] := rfl
  have hf : DriveTracks.filtered (samplePlugin 1 1 1 [contactLeftGround]) contactLeftGround =
      false := by decide
  have hp : matchingPositions sampleWorld (DriveTracks.body1 contactLeftGround)
      (DriveTracks.geom1 contactLeftGround) (DriveTracks.geom2 contactLeftGround) = [0, 3] := by
    decide
  rw [ht, List.foldlM_cons, processContact_eq, hf]
  simp only [Bool.false_eq_true, if_false, hp]
  rfl

/-- C11: after `SetTrackVelocity(1, 1)` the left track of the sample vehicle rests on
flat ground in the joints 0 and 3, both with the unit normal (0, 0, 1), perpendicular
to the unit body Y axis (0, 1, 0). `DriveTracks` selects the straight branch and
makes two passes of its inner loop with the belt speed -1, but the record a pass
writes is the one the pointer in a dead stack slot designates: on a machine whose
dead slots hold the pointer to joint 0 both passes write joint 0 (friction
direction (-1, 0, 0), the cross product of normal and Y axis, surface motion of
magnitude 1), and the track contact of joint 3 keeps the friction direction
(0, 0, 0), the surface motion 0 and the mode 0 it had; on a machine whose dead
slots hold no usable pointer the call does not come to its end. -/
theorem C11_straight_drive_misses_contact :
    (samplePlugin 1 1 1 [contactLeftGround]).trackVelocity = SetTrackVelocity 1 1 ∧
    DriveTracks.drivingStraight
      (DriveTracks.radiusOf (samplePlugin 1 1 1 [contactLeftGround])) = true ∧
    DriveTracks.bodyYAxisGlobal (samplePlugin 1 1 1 [contactLeftGround]).bodyPose =
      ⟨0, 1, 0⟩ ∧
    DriveTracks.targets (samplePlugin 1 1 1 [contactLeftGround]) sampleWorld
      contactLeftGround = [0, 3] ∧
    sampleWorld.joint 0 = dxJoint.contact (groundContact ⟨0, 0, 1⟩ ⟨1, 1, 0⟩ 10 20) ∧
    sampleWorld.joint 3 = dxJoint.contact (groundContact ⟨0, 0, 1⟩ ⟨-1, 1, 0⟩ 10 20) ∧
    (⟨0, 0, 1⟩ : Vector3d).Cross ⟨0, 1, 0⟩ = ⟨-1, 0, 0⟩ ∧
    (∃ r : DriveState,
      DriveTracks (samplePlugin 1 1 1 [contactLeftGround]) staleMachine sampleWorld = some r ∧
      r.reads = 2 ∧ r.warned = [] ∧
      r.world.joint 0 = dxJoint.contact
        { surface := ⟨34, -1⟩, geom := ⟨⟨1, 1, 0⟩, ⟨0, 0, 1⟩, 10, 20⟩, fdir1 := ⟨-1, 0, 0⟩ } ∧
      r.world.joint 3 = dxJoint.contact
        { surface := ⟨0, 0⟩, geom := ⟨⟨-1, 1, 0⟩, ⟨0, 0, 1⟩, 10, 20⟩, fdir1 := ⟨0, 0, 0⟩ }) ∧
    DriveTracks (samplePlugin 1 1 1 [contactLeftGround]) deadMachine sampleWorld = none := by
  have hr : DriveTracks.radiusOf (samplePlugin 1 1 1 [contactLeftGround]) = none :=
    radiusOf_eq_none _ rfl
  refine ⟨rfl, (by rw [hr]; rfl), sample_yaxis, (by decide), rfl, rfl,
    (by norm_num [Vector3d.Cross]), ?_, sample_run_dead⟩
  refine ⟨_, sample_run_stale, rfl, rfl, ?_, rfl⟩
  rw [store_joint_self, writeContact_absorb, sample_written]

/-! ## The outer loop -/

/-- C13: for a contact that `DriveTracks` visits, the pass of the loop body changes
no contact record, makes no read through the iterator and adds no warning whenever
either collision is flagged `collideWithoutContact`, either link is disabled, both
collisions are static, or neither geometry carries a bit of `BELT_CATEGORY`; the
loop goes on with the next contact in the same state. This holds on every
machine. -/
theorem C13_skipped_contact_writes_nothing (P : PluginState) (mc : Machine)
    (st : DriveState) (contact : Contact) (i : Nat) (rest : List Contact)
    (h : contact.collision1.collideWithoutContact = true ∨
      contact.collision2.collideWithoutContact = true ∨
      contact.collision1.linkEnabled = false ∨
      contact.collision2.linkEnabled = false ∨
      (contact.collision1.IsStatic = true ∧ contact.collision2.IsStatic = true) ∨
      (¬ (P.categoryBits contact.collision1.CollisionId &&& P.BELT_CATEGORY) > 0 ∧
        ¬ (P.categoryBits contact.collision2.CollisionId &&& P.BELT_CATEGORY) > 0)) :
    DriveTracks.processContact P mc st contact = some st ∧
    DriveTracks.targets P st.world contact = [] ∧
    (i ≠ P.contactCount →
      DriveTracks.contactsLoop P mc i (contact :: rest) st =
        DriveTracks.contactsLoop P mc (i + 1) rest st) := by
  have hskip : (DriveTracks.skipped contact ||
      (!DriveTracks.isTrack P (DriveTracks.geom1 contact) &&
        !DriveTracks.isTrack P (DriveTracks.geom2 contact))) = true := by
    rcases h with h | h | h | h | h | h
    · simp [DriveTracks.skipped, h]
    · simp [DriveTracks.skipped, h]
    · simp [DriveTracks.skipped, h]
    · simp [DriveTracks.skipped, h]
    · simp [DriveTracks.skipped, h.1, h.2]
    · rw [(noBelt_iff P contact).2 h]
      simp
  have hp : DriveTracks.processContact P mc st contact = some st := by
    rw [processContact_eq, DriveTracks.filtered, if_pos hskip]
  refine ⟨hp, ?_, ?_⟩
  · rw [DriveTracks.targets, if_pos hskip]
  · intro hi
    simp only [DriveTracks.contactsLoop, if_neg hi, hp]

/-- Witness of C13: the left track on the ground with the link of the track
disabled, and the chassis on the ground, which has no belt geometry. -/
theorem C13_skipped_contact_writes_nothing_witness :
    DriveTracks.processContact (samplePlugin 1 1 1 [contactLeftGroundDisabled]) deadMachine
        ⟨sampleWorld, [], 0⟩ contactLeftGroundDisabled = some ⟨sampleWorld, [], 0⟩ ∧
    DriveTracks.processContact (samplePlugin 1 1 1 [contactChassisGround]) deadMachine
        ⟨sampleWorld, [], 0⟩ contactChassisGround = some ⟨sampleWorld, [], 0⟩ :=
  ⟨(C13_skipped_contact_writes_nothing (samplePlugin 1 1 1 [contactLeftGroundDisabled])
      deadMachine ⟨sampleWorld, [], 0⟩ contactLeftGroundDisabled 0 []
      (Or.inr (Or.inr (Or.inl rfl)))).1,
    (C13_skipped_contact_writes_nothing (samplePlugin 1 1 1 [contactChassisGround])
      deadMachine ⟨sampleWorld, [], 0⟩ contactChassisGround 0 []
      (Or.inr (Or.inr (Or.inr (Or.inr (Or.inr (by decide))))))).1⟩

theorem map_const_map (l : List Nat) (a b : Nat) :
    (l.map (fun _ => a)).map (fun _ => b) = l.map (fun _ => b) := by
  simp [List.map_map]

theorem stack_eq_of_getLast? (l : List LinkId) (link : LinkId)
    (h : l.getLast? = some link) : l = l.dropLast ++ [link] := by
  have hne : l ≠ [] := by
    intro e
    rw [e] at h
    cases h
  rw [List.getLast?_eq_getLast l hne] at h
  injection h with h
  rw [← h, List.dropLast_append_getLast hne]

/-- Whenever the first loop of `SetGeomCategories` finishes, every link has its old
bits or `ROBOT_CATEGORY` on all its collisions, and every link that was in the list
has `ROBOT_CATEGORY`. -/
theorem robotLoop_post (M : ModelLinks) (R : Nat) :
    ∀ (fuel : Nat) (stack : List LinkId) (s s2 : CategoryBits),
      SetGeomCategories.robotLoop M R fuel stack s = some s2 →
      (∀ l, s2 l = s l ∨ s2 l = (s l).map (fun _ => R)) ∧
        (∀ l ∈ stack, s2 l = (s l).map (fun _ => R)) := by
  intro fuel
  induction fuel with
  | zero =>
    intro stack s s2 h
    simp only [SetGeomCategories.robotLoop] at h
    split_ifs at h with he
    injection h with h
    subst h
    exact ⟨fun l => Or.inl rfl, by simp [he]⟩
  | succ fuel ih =>
    intro stack s s2 h
    simp only [SetGeomCategories.robotLoop] at h
    cases hl : stack.getLast? with
    | none =>
      rw [hl] at h
      injection h with h
      subst h
      have : stack = [] := List.getLast?_eq_none_iff.mp hl
      exact ⟨fun l => Or.inl rfl, by simp [this]⟩
    | some link =>
      rw [hl] at h
      have hst := stack_eq_of_getLast? stack link hl
      obtain ⟨h1, h2⟩ := ih _ _ _ h
      have key : ∀ l, (setLinkCategoryBits s link R l).map (fun _ => R) =
          (s l).map (fun _ => R) := by
        intro l
        simp only [setLinkCategoryBits]
        split_ifs
        · exact map_const_map _ _ _
        · rfl
      have hlink : s2 link = (s link).map (fun _ => R) := by
        rcases h1 link with e | e
        · rw [e]; simp [setLinkCategoryBits]
        · rw [e, key]
      refine ⟨?_, ?_⟩
      · intro l
        by_cases hll : l = link
        · rw [hll]; exact Or.inr hlink
        · rcases h1 l with e | e
          · left; rw [e]; simp [setLinkCategoryBits, hll]
          · right; rw [e, key]
      · intro l hmem
        rw [hst] at hmem
        rcases List.mem_append.1 hmem with hm | hm
        · rw [h2 l (List.mem_append_left _ hm), key]
        · have : l = link := by simpa using hm
          rw [this]; exact hlink

theorem trackLoop_two (R B L : Nat) (lt rt : LinkId) (tracks : List (Tracks × LinkId))
    (s : CategoryBits) (hne : lt ≠ rt)
    (htracks : tracks = [(Tracks.LEFT, lt), (Tracks.RIGHT, rt)] ∨
      tracks = [(Tracks.RIGHT, rt), (Tracks.LEFT, lt)]) :
    SetGeomCategories.trackLoop R B L tracks s =
      fun l => if l = lt then (s l).map (fun _ => R ||| B ||| L)
        else if l = rt then (s l).map (fun _ => R ||| B) else s l := by
  funext l
  have hne2 : ¬ rt = lt := fun e => hne e.symm
  rcases htracks with h | h
  · subst h
    simp only [SetGeomCategories.trackLoop, setLinkCategoryBits]
    by_cases h1 : l = lt
    · have : ¬ l = rt := by rw [h1]; exact hne
      simp [h1, hne]
    · by_cases h2 : l = rt
      · simp [h1, h2, hne2]
      · simp [h1, h2]
  · subst h
    simp only [SetGeomCategories.trackLoop, setLinkCategoryBits]
    by_cases h1 : l = lt
    · simp [h1, hne]
    · by_cases h2 : l = rt
      · simp [h1, h2, hne2]
      · simp [h1, h2]

theorem and_eq_zero_testBit (a b : Nat) (h : a &&& b = 0) (i : Nat) :
    (a.testBit i && b.testBit i) = false := by
  have := congrArg (fun n => Nat.testBit n i) h
  simpa [Nat.testBit_and] using this

theorem or_and_self_right (a b : Nat) : (a ||| b) &&& b = b := by
  apply Nat.eq_of_testBit_eq
  intro i
  simp only [Nat.testBit_and, Nat.testBit_or]
  cases a.testBit i <;> cases b.testBit i <;> rfl

theorem or_and_of_disjoint (a b c : Nat) (hac : a &&& c = 0) (hbc : b &&& c = 0) :
    (a ||| b) &&& c = 0 := by
  apply Nat.eq_of_testBit_eq
  intro i
  have h1 := and_eq_zero_testBit a c hac i
  have h2 := and_eq_zero_testBit b c hbc i
  simp only [Nat.testBit_and, Nat.testBit_or, Nat.zero_testBit]
  revert h1 h2
  cases a.testBit i <;> cases b.testBit i <;> cases c.testBit i <;> simp

theorem sum_pow_lt (rank : LinkId → Nat) (D r : Nat) (cs : List LinkId)
    (hlen : cs.length ≤ D) (hr : ∀ c ∈ cs, rank c < r) :
    (cs.map (fun c => (D + 1) ^ rank c)).sum < (D + 1) ^ r := by
  cases r with
  | zero =>
    cases cs with
    | nil => simp
    | cons c cs => exact absurd (hr c (List.mem_cons_self _ _)) (Nat.not_lt_zero _)
  | succ r =>
    have hb : ∀ x ∈ cs.map (fun c => (D + 1) ^ rank c), x ≤ (D + 1) ^ r := by
      intro x hx
      obtain ⟨c, hc, rfl⟩ := List.mem_map.1 hx
      exact Nat.pow_le_pow_right (Nat.succ_pos D) (Nat.lt_succ_iff.mp (hr c hc))
    have h1 := List.sum_le_card_nsmul _ _ hb
    simp only [List.length_map, smul_eq_mul] at h1
    have h2 : cs.length * (D + 1) ^ r ≤ D * (D + 1) ^ r := Nat.mul_le_mul_right _ hlen
    have h3 : 0 < (D + 1) ^ r := pow_pos (Nat.succ_pos D) _
    calc (cs.map (fun c => (D + 1) ^ rank c)).sum ≤ D * (D + 1) ^ r := le_trans h1 h2
      _ < D * (D + 1) ^ r + (D + 1) ^ r := Nat.lt_add_of_pos_right h3
      _ = (D + 1) ^ (r + 1) := by ring

/-- The first loop of `SetGeomCategories` finishes when no link is its own
descendant: `rank` decreases along the child joints and `D` bounds the number of
child links of a link. -/
theorem robotLoop_isSome (M : ModelLinks) (R : Nat) (rank : LinkId → Nat) (D : Nat)
    (hD : ∀ l, (M.GetChildJointsLinks l).length ≤ D)
    (hrank : ∀ l, ∀ c ∈ M.GetChildJointsLinks l, rank c < rank l) :
    ∀ (fuel : Nat) (stack : List LinkId) (s : CategoryBits),
      (stack.map (fun c => (D + 1) ^ rank c)).sum ≤ fuel →
      (SetGeomCategories.robotLoop M R fuel stack s).isSome = true := by
  intro fuel
  induction fuel with
  | zero =>
    intro stack s h
    cases stack with
    | nil => simp [SetGeomCategories.robotLoop]
    | cons c cs =>
      have h3 : 0 < (D + 1) ^ rank c := pow_pos (Nat.succ_pos D) _
      simp only [List.map_cons, List.sum_cons] at h
      omega
  | succ fuel ih =>
    intro stack s h
    simp only [SetGeomCategories.robotLoop]
    cases hl : stack.getLast? with
    | none => rfl
    | some link =>
      simp only
      apply ih
      have hst := stack_eq_of_getLast? stack link hl
      rw [hst] at h
      simp only [List.map_append, List.sum_append, List.map_cons, List.map_nil, List.sum_cons,
        List.sum_nil, Nat.add_zero] at h ⊢
      have := sum_pow_lt rank D (rank link) (M.GetChildJointsLinks link) (hD link) (hrank link)
      omega

/-- C17: with `ROBOT_CATEGORY`, `BELT_CATEGORY` and `LEFT_CATEGORY` pairwise disjoint
non-zero masks and the left and right track distinct links of the model, whenever
`SetGeomCategories` returns, every collision of the left track has the bits
`ROBOT | BELT | LEFT`, every collision of the right track `ROBOT | BELT`, and every
collision of every other link of the model exactly `ROBOT`; so among the links of the
model the belt test `(bits & BELT_CATEGORY) > 0` holds exactly for the collisions of
the tracks and the test of `LEFT_CATEGORY` exactly for those of the left track. The
function returns when no link is its own descendant along the child joints. -/
theorem C17_categories_after_SetGeomCategories (M : ModelLinks) (R B L : Nat) (lt rt : LinkId)
    (tracks : List (Tracks × LinkId)) (s : CategoryBits)
    (hRB : R &&& B = 0) (hRL : R &&& L = 0) (hBL : B &&& L = 0)
    (_hR : R ≠ 0) (hB : B ≠ 0) (hL : L ≠ 0)
    (hne : lt ≠ rt) (hlt : lt ∈ M.GetLinks) (hrt : rt ∈ M.GetLinks)
    (htracks : tracks = [(Tracks.LEFT, lt), (Tracks.RIGHT, rt)] ∨
      tracks = [(Tracks.RIGHT, rt), (Tracks.LEFT, lt)]) :
    (∀ (fuel : Nat) (s2 : CategoryBits), SetGeomCategories fuel M tracks R B L s = some s2 →
      s2 lt = (s lt).map (fun _ => R ||| B ||| L) ∧
      s2 rt = (s rt).map (fun _ => R ||| B) ∧
      (∀ l ∈ M.GetLinks, l ≠ lt → l ≠ rt → s2 l = (s l).map (fun _ => R)) ∧
      (∀ l ∈ M.GetLinks, ∀ bits ∈ s2 l,
        ((bits &&& B) > 0 ↔ (l = lt ∨ l = rt)) ∧ ((bits &&& L) ≠ 0 ↔ l = lt))) ∧
    (∀ (rank : LinkId → Nat) (D : Nat),
      (∀ l, (M.GetChildJointsLinks l).length ≤ D) →
      (∀ l, ∀ c ∈ M.GetChildJointsLinks l, rank c < rank l) →
      ∀ fuel : Nat, (M.GetLinks.map (fun c => (D + 1) ^ rank c)).sum ≤ fuel →
        (SetGeomCategories fuel M tracks R B L s).isSome = true) := by
  have hne2 : ¬ rt = lt := fun e => hne e.symm
  have hBpos : 0 < B := Nat.pos_of_ne_zero hB
  refine ⟨?_, ?_⟩
  · intro fuel s2 h
    simp only [SetGeomCategories] at h
    cases h1 : SetGeomCategories.robotLoop M R fuel M.GetLinks s with
    | none => rw [h1] at h; cases h
    | some s1 =>
      rw [h1, Option.map_some', trackLoop_two R B L lt rt tracks s1 hne htracks] at h
      injection h with h
      obtain ⟨_, hmem⟩ := robotLoop_post M R fuel _ _ _ h1
      have e1 : s2 lt = (s lt).map (fun _ => R ||| B ||| L) := by
        rw [← h]
        simp only [if_true]
        rw [hmem lt hlt, map_const_map]
      have e2 : s2 rt = (s rt).map (fun _ => R ||| B) := by
        rw [← h]
        simp only [hne2, if_false, if_true]
        rw [hmem rt hrt, map_const_map]
      have e3 : ∀ l ∈ M.GetLinks, l ≠ lt → l ≠ rt → s2 l = (s l).map (fun _ => R) := by
        intro l hl h1 h2
        rw [← h]
        simp only [h1, h2, if_false]
        exact hmem l hl
      refine ⟨e1, e2, e3, ?_⟩
      intro l hl bits hbits
      by_cases c1 : l = lt
      · rw [c1, e1] at hbits
        obtain ⟨_, _, rfl⟩ := List.mem_map.1 hbits
        have hb : (R ||| B ||| L) &&& B = B := by
          rw [Nat.or_assoc, Nat.or_comm B L, ← Nat.or_assoc, or_and_self_right]
        have hl2 : (R ||| B ||| L) &&& L = L := or_and_self_right _ _
        rw [hb, hl2]
        exact ⟨⟨fun _ => Or.inl c1, fun _ => hBpos⟩, ⟨fun _ => c1, fun _ => hL⟩⟩
      · by_cases c2 : l = rt
        · rw [c2, e2] at hbits
          obtain ⟨_, _, rfl⟩ := List.mem_map.1 hbits
          rw [or_and_self_right, or_and_of_disjoint R B L hRL hBL]
          exact ⟨⟨fun _ => Or.inr c2, fun _ => hBpos⟩,
            ⟨fun e => absurd rfl e, fun e => absurd e c1⟩⟩
        · rw [e3 l hl c1 c2] at hbits
          obtain ⟨_, _, rfl⟩ := List.mem_map.1 hbits
          rw [hRB, hRL]
          exact ⟨⟨fun e => absurd e (lt_irrefl 0), fun e => e.elim (absurd · c1) (absurd · c2)⟩,
            ⟨fun e => absurd rfl e, fun e => absurd e c1⟩⟩
  · intro rank D hD hrank fuel hfuel
    simp only [SetGeomCategories, Option.isSome_map']
    exact robotLoop_isSome M R rank D hD hrank fuel _ s hfuel

theorem sampleModel_children_length (l : LinkId) :
    (sampleModel.GetChildJointsLinks l).length ≤ 2 := by
  simp only [sampleModel]
  split_ifs <;> simp

theorem sampleModel_rank (l : LinkId) :
    ∀ c ∈ sampleModel.GetChildJointsLinks l,
      (fun k : LinkId => if k = 0 then 2 else if k = 1 then 1 else 0) c <
        (fun k : LinkId => if k = 0 then 2 else if k = 1 then 1 else 0) l := by
  intro c hc
  simp only [sampleModel] at hc
  split_ifs at hc with h0 h1
  · subst h0
    simp only [List.mem_cons, List.mem_singleton, List.not_mem_nil, or_false] at hc
    rcases hc with rfl | rfl <;> simp
  · subst h1
    simp only [List.mem_singleton] at hc
    subst hc
    simp
  · simp at hc

/-- Witness of C17: the sample model with the masks 1, 2 and 4, left track 1 and
right track 2: the call returns with fuel 30, the two collisions of the left track
get the bits 7, the collision of the right track 3 and that of the chassis 1. -/
theorem C17_categories_after_SetGeomCategories_witness :
    (SetGeomCategories 30 sampleModel [(Tracks.LEFT, 1), (Tracks.RIGHT, 2)] 1 2 4
      sampleBits).isSome = true ∧
    ∃ s2 : CategoryBits,
      SetGeomCategories 30 sampleModel [(Tracks.LEFT, 1), (Tracks.RIGHT, 2)] 1 2 4
        sampleBits = some s2 ∧
      s2 1 = [7, 7] ∧ s2 2 = [3] ∧ s2 0 = [1] :=
  ⟨(C17_categories_after_SetGeomCategories sampleModel 1 2 4 1 2
      [(Tracks.LEFT, 1), (Tracks.RIGHT, 2)] sampleBits (by decide) (by decide) (by decide)
      (by decide) (by decide) (by decide) (by decide) (by decide) (by decide)
      (Or.inl rfl)).2 (fun k => if k = 0 then 2 else if k = 1 then 1 else 0) 2
      sampleModel_children_length sampleModel_rank 30 (by decide),
    (Option.isSome_iff_exists.1
      ((C17_categories_after_SetGeomCategories sampleModel 1 2 4 1 2
        [(Tracks.LEFT, 1), (Tracks.RIGHT, 2)] sampleBits (by decide) (by decide) (by decide)
        (by decide) (by decide) (by decide) (by decide) (by decide) (by decide)
        (Or.inl rfl)).2 (fun k => if k = 0 then 2 else if k = 1 then 1 else 0) 2
        sampleModel_children_length sampleModel_rank 30 (by decide))).elim
      (fun s2 h => ⟨s2, h,
        ((C17_categories_after_SetGeomCategories sampleModel 1 2 4 1 2
          [(Tracks.LEFT, 1), (Tracks.RIGHT, 2)] sampleBits (by decide) (by decide) (by decide)
          (by decide) (by decide) (by decide) (by decide) (by decide) (by decide)
          (Or.inl rfl)).1 30 s2 h).1.trans (by decide),
        ((C17_categories_after_SetGeomCategories sampleModel 1 2 4 1 2
          [(Tracks.LEFT, 1), (Tracks.RIGHT, 2)] sampleBits (by decide) (by decide) (by decide)
          (by decide) (by decide) (by decide) (by decide) (by decide) (by decide)
          (Or.inl rfl)).1 30 s2 h).2.1.trans (by decide),
        (((C17_categories_after_SetGeomCategories sampleModel 1 2 4 1 2
          [(Tracks.LEFT, 1), (Tracks.RIGHT, 2)] sampleBits (by decide) (by decide) (by decide)
          (by decide) (by decide) (by decide) (by decide) (by decide) (by decide)
          (Or.inl rfl)).1 30 s2 h).2.2.1 0 (by decide) (by decide) (by decide)).trans
          (by decide)⟩)⟩

/-! ## The comparison of iterators -/

/-- C21: `operator==` advances a left operand that is not initialized and has no
current contact before it compares, and returns for any other left operand without
touching it; the right operand is only read. So for every body without a contact
joint between `gA` and `gB`, a fresh `begin(body, gA, gB)` as the left operand equals
`end()`, while `end()` as the left operand does not equal a fresh
`begin(body, gA, gB)`. -/
theorem C21_operatorEq_not_symmetric (addr : StackAddr) (joints : dBodyJoints)
    (body : dBodyID)
    (gA gB : dGeomID) (hno : ∀ x ∈ joints body, matchingContact gA gB x = none) :
    (∀ it rhs : ContactIterator, it.currentContact = none → it.initialized = false →
      (ContactIterator.operatorEq addr joints it rhs).2 =
        ContactIterator.operatorInc addr joints it) ∧
    (∀ it rhs : ContactIterator, (it.currentContact ≠ none ∨ it.initialized = true) →
      (ContactIterator.operatorEq addr joints it rhs).2 = it) ∧
    (ContactIterator.operatorEq addr joints (ContactIterator.begin body gA gB)
      ContactIterator.end).1 = true ∧
    (ContactIterator.operatorEq addr joints ContactIterator.end
      (ContactIterator.begin body gA gB)).1 = false ∧
    (ContactIterator.operatorEq addr joints ContactIterator.end
      (ContactIterator.begin body gA gB)).2 = ContactIterator.end := by
  have hs := scan_eq_none (joints body) gA gB 0 hno
  refine ⟨?_, ?_, ?_, ?_, ?_⟩
  · intro it rhs hc hi
    simp [ContactIterator.operatorEq, hc, hi]
  · intro it rhs h
    rcases h with h | h
    · cases hc : it.currentContact with
      | none => exact absurd hc h
      | some p => simp [ContactIterator.operatorEq, hc]
    · simp [ContactIterator.operatorEq, h]
  · simp [ContactIterator.operatorEq, ContactIterator.operatorInc, ContactIterator.begin,
      ContactIterator.mk3, ContactIterator.end, ContactIterator.mk1, hs]
  · simp [ContactIterator.operatorEq, ContactIterator.begin, ContactIterator.mk3,
      ContactIterator.end, ContactIterator.mk1]
  · simp [ContactIterator.operatorEq, ContactIterator.end, ContactIterator.mk1]

/-- Witness of C21 on the sample joint lists: body 1 has no contact between the
geometries 8 and 9. -/
theorem C21_operatorEq_not_symmetric_witness :
    (∀ x ∈ sampleJoints 1, matchingContact 8 9 x = none) ∧
    (ContactIterator.operatorEq 100 sampleJoints (ContactIterator.begin 1 8 9)
      ContactIterator.end).1 = true ∧
    (ContactIterator.operatorEq 100 sampleJoints ContactIterator.end
      (ContactIterator.begin 1 8 9)).1 = false :=
  ⟨by decide,
    (C21_operatorEq_not_symmetric 100 sampleJoints 1 8 9 (by decide)).2.2.1,
    (C21_operatorEq_not_symmetric 100 sampleJoints 1 8 9 (by decide)).2.2.2.1⟩

end SimpleTrackedVehiclePlugin
